import Mathlib

/-!
# motion-svg — shallow embedding and verification of the interpolation / playback core

This file embeds the core of the `motion-svg` animation engine in Lean 4 and
proves (or refutes) a list of claims about it.  JavaScript `number`s are
modelled as `ℚ`; the host's floating-point math library (`Math.sqrt`,
`Math.sin`, `Math.cos`, `Math.tan`, `Math.acos`, `Math.atan2`, `Math.hypot`,
`Math.PI`, and `2 ** x`) is not part of the repository's source, so it is
modelled as an explicit `HostMath` environment threaded through the
definitions that call it.  Module-level mutable state (the gradient-id
counter) becomes explicit state passing; the host clock reading used inside
generated gradient ids (`Date.now().toString(36)`) is an environment
function `ℕ → String` indexed by the counter value at generation time.

Sources embedded (file → section below):
* `src/easing/curves.ts`      — easing resolver
* `src/timeline/pathMorph.ts` — outline parsing / normalisation / balancing / blending
* `src/timeline/interpolate.ts` — per-property keyframe interpolation
* `src/timeline/timeline.ts`  — timeline constructor
* `src/trigger/trigger.ts`    — trigger binding validation
* `src/trigger/playback.ts`   — playback state machine
* `src/core/PluginSystem.ts`  — hook registry (`has` / `run` chaining)
-/

namespace MotionSvg

/-- Plain 2D point, from `types.ts` (`Point`). -/
structure Point where
  x : ℚ
  y : ℚ
deriving Repr, DecidableEq

/-- TypeScript `number | Point` (scale values). -/
inductive ScaleVal where
  | num (v : ℚ)
  | pt (p : Point)
deriving Repr, DecidableEq

/-- Gradient stop, from `types.ts` (`GradientStop`). -/
structure GradientStop where
  offset : ℚ
  color : String
  opacity : Option ℚ := none
deriving Repr, DecidableEq

/-- Linear gradient definition, from `types.ts` (`LinearGradientDef`). -/
structure LinearGradientDef where
  id : String
  x1 : ℚ
  y1 : ℚ
  x2 : ℚ
  y2 : ℚ
  stops : List GradientStop
  gradientUnits : Option String := none
  gradientTransform : Option String := none
deriving Repr, DecidableEq

/-- Radial gradient definition, from `types.ts` (`RadialGradientDef`). -/
structure RadialGradientDef where
  id : String
  cx : ℚ
  cy : ℚ
  r : ℚ
  fx : Option ℚ := none
  fy : Option ℚ := none
  stops : List GradientStop
  gradientUnits : Option String := none
  gradientTransform : Option String := none
deriving Repr, DecidableEq

/-- Tagged union `GradientDef = LinearGradientDef | RadialGradientDef`
(the `type: 'linear' | 'radial'` tag becomes the constructor). -/
inductive GradientDef where
  | linear (g : LinearGradientDef)
  | radial (g : RadialGradientDef)
deriving Repr, DecidableEq

def GradientDef.stops : GradientDef → List GradientStop
  | .linear g => g.stops
  | .radial g => g.stops

def GradientDef.gid : GradientDef → String
  | .linear g => g.id
  | .radial g => g.id

def GradientDef.gradientUnits : GradientDef → Option String
  | .linear g => g.gradientUnits
  | .radial g => g.gradientUnits

/-- Source: `EasingCurve = EasingName | CubicBezierCurve` from `types.ts`.  Easing
names are strings at runtime (the `EasingName` union is erased), so they are
modelled as `String`. -/
inductive EasingCurve where
  | named (n : String)
  | cubicBezier (x1 y1 x2 y2 : ℚ)
deriving Repr, DecidableEq

/-- Keyframe record from `types.ts` (`Keyframe`). `at` is time in ms; every
animatable field is optional.  `strokeAlign` is a string union at runtime. -/
structure Keyframe where
  «at» : ℚ
  position : Option Point := none
  scale : Option ScaleVal := none
  rotation : Option ℚ := none
  opacity : Option ℚ := none
  fill : Option String := none
  stroke : Option String := none
  strokeWidth : Option ℚ := none
  strokeAlign : Option String := none
  blurRadius : Option ℚ := none
  backdropBlur : Option ℚ := none
  width : Option ℚ := none
  height : Option ℚ := none
  pathD : Option String := none
  curve : Option EasingCurve := none
deriving Repr, DecidableEq

/-- Host floating-point math environment.  These functions are provided by
the JavaScript host (`Math.*`), not by the repository's source; theorems
about code paths that use them quantify over this environment (adding the
minimal analytic facts a claim needs as explicit hypotheses). -/
structure HostMath where
  pi : ℚ
  sqrt : ℚ → ℚ
  sin : ℚ → ℚ
  cos : ℚ → ℚ
  tan : ℚ → ℚ
  acos : ℚ → ℚ
  atan2 : ℚ → ℚ → ℚ
  hypot : ℚ → ℚ → ℚ
  exp2 : ℚ → ℚ

/-- JS `Math.round`: round half toward +∞. -/
def jsRound (x : ℚ) : ℤ := ⌊x + 1/2⌋

/-- JS `Math.abs`. -/
def jsAbs (q : ℚ) : ℚ := if q < 0 then -q else q

-- ─── src/easing/curves.ts ────────────────────────────────────────────────────

/-- Source: `cubicBezier`'s Newton–Raphson loop (8 iterations in the source).
Returns `none` when the loop falls through to the bisection stage (either by
exhausting its iterations or by hitting a near-zero derivative `break`). -/
def newtonLoop (sampleX dSampleX : ℚ → ℚ) (x : ℚ) : ℕ → ℚ → Option ℚ
  | 0, _ => none
  | k + 1, t =>
    let currentX := sampleX t - x
    if jsAbs currentX < 1/10000000 then some t
    else
      let d := dSampleX t
      if jsAbs d < 1/10000000 then none
      else newtonLoop sampleX dSampleX x k (t - currentX / d)

/-- Source: `cubicBezier`'s bisection fallback.  The source's `while (lo < hi)` loop
terminates through floating-point granularity; exact rationals have no such
granularity, so the model bounds the loop with fuel (64 halvings exceed the
precision of an IEEE double on `[0,1]`) and returns the cursor when fuel runs
out, as the float loop does at its final iteration. -/
def bisectLoop (sampleX : ℚ → ℚ) (x : ℚ) : ℕ → ℚ → ℚ → ℚ → ℚ
  | 0, _, _, t => t
  | k + 1, lo, hi, t =>
    if lo < hi then
      let mid := sampleX t
      if jsAbs (mid - x) < 1/10000000 then t
      else
        let lo' := if x > mid then t else lo
        let hi' := if x > mid then hi else t
        bisectLoop sampleX x k lo' hi' ((lo' + hi') / 2)
    else t

/-- Source: `cubicBezier(x1, y1, x2, y2)` from `curves.ts` (WebKit UnitBezier). -/
def cubicBezierFn (x1 y1 x2 y2 : ℚ) : ℚ → ℚ :=
  let cx := 3 * x1
  let bx := 3 * (x2 - x1) - cx
  let ax := 1 - cx - bx
  let cy := 3 * y1
  let by_ := 3 * (y2 - y1) - cy
  let ay := 1 - cy - by_
  let sampleCurveX := fun t => ((ax * t + bx) * t + cx) * t
  let sampleCurveY := fun t => ((ay * t + by_) * t + cy) * t
  let sampleCurveDerivativeX := fun t => (3 * ax * t + 2 * bx) * t + cx
  let solveCurveX := fun x =>
    match newtonLoop sampleCurveX sampleCurveDerivativeX x 8 x with
    | some t => t
    | none => bisectLoop sampleCurveX x 64 0 1 x
  fun t =>
    if t ≤ 0 then 0
    else if t ≥ 1 then 1
    else sampleCurveY (solveCurveX t)

/-- Source: `bounceOut` helper from `curves.ts`. -/
def bounceOut (t : ℚ) : ℚ :=
  let n1 : ℚ := 75625/10000
  let d1 : ℚ := 275/100
  if t < 1 / d1 then n1 * t * t
  else if t < 2 / d1 then
    let t := t - 15/10 / d1
    n1 * t * t + 75/100
  else if t < 25/10 / d1 then
    let t := t - 225/100 / d1
    n1 * t * t + 9375/10000
  else
    let t := t - 2625/1000 / d1
    n1 * t * t + 984375/1000000

/-- The named easing table from `curves.ts` (`easingFunctions`).  The back
constants are `c1 = 1.70158`, `c2 = c1 * 1.525`, `c3 = c1 + 1`,
`c4 = 2π/3`, `c5 = 2π/4.5`; sine and elastic entries call the host's
`Math.cos` / `Math.sin` / `2 ** x`, hence the `HostMath` parameter.
An unknown name yields `none` (the resolver then falls back to linear). -/
def easingFunctions (M : HostMath) (name : String) : Option (ℚ → ℚ) :=
  let c1 : ℚ := 170158/100000
  let c2 : ℚ := c1 * 1525/1000
  let c3 : ℚ := c1 + 1
  let c4 : ℚ := 2 * M.pi / 3
  let c5 : ℚ := 2 * M.pi / (45/10)
  if name = "linear" then some (fun t => t)
  else if name = "easeIn" then some (fun t => 1 - M.cos (t * M.pi / 2))
  else if name = "easeOut" then some (fun t => M.sin (t * M.pi / 2))
  else if name = "easeInOut" then some (fun t => -(M.cos (M.pi * t) - 1) / 2)
  else if name = "easeInQuad" then some (fun t => t * t)
  else if name = "easeOutQuad" then some (fun t => 1 - (1 - t) * (1 - t))
  else if name = "easeInOutQuad" then
    some (fun t => if t < 1/2 then 2 * t * t else 1 - (-2 * t + 2) ^ 2 / 2)
  else if name = "easeInCubic" then some (fun t => t * t * t)
  else if name = "easeOutCubic" then some (fun t => 1 - (1 - t) ^ 3)
  else if name = "easeInOutCubic" then
    some (fun t => if t < 1/2 then 4 * t * t * t else 1 - (-2 * t + 2) ^ 3 / 2)
  else if name = "easeInQuart" then some (fun t => t * t * t * t)
  else if name = "easeOutQuart" then some (fun t => 1 - (1 - t) ^ 4)
  else if name = "easeInOutQuart" then
    some (fun t => if t < 1/2 then 8 * t * t * t * t else 1 - (-2 * t + 2) ^ 4 / 2)
  else if name = "easeInBack" then some (fun t => c3 * t * t * t - c1 * t * t)
  else if name = "easeOutBack" then
    some (fun t => 1 + c3 * (t - 1) ^ 3 + c1 * (t - 1) ^ 2)
  else if name = "easeInOutBack" then
    some (fun t =>
      if t < 1/2 then ((2 * t) ^ 2 * ((c2 + 1) * 2 * t - c2)) / 2
      else ((2 * t - 2) ^ 2 * ((c2 + 1) * (t * 2 - 2) + c2) + 2) / 2)
  else if name = "easeInElastic" then
    some (fun t =>
      if t = 0 then 0 else if t = 1 then 1
      else -(M.exp2 (10 * t - 10)) * M.sin ((t * 10 - 1075/100) * c4))
  else if name = "easeOutElastic" then
    some (fun t =>
      if t = 0 then 0 else if t = 1 then 1
      else M.exp2 (-10 * t) * M.sin ((t * 10 - 75/100) * c4) + 1)
  else if name = "easeInOutElastic" then
    some (fun t =>
      if t = 0 then 0 else if t = 1 then 1
      else if t < 1/2 then -(M.exp2 (20 * t - 10) * M.sin ((20 * t - 11125/1000) * c5)) / 2
      else M.exp2 (-20 * t + 10) * M.sin ((20 * t - 11125/1000) * c5) / 2 + 1)
  else if name = "easeInBounce" then some (fun t => 1 - bounceOut (1 - t))
  else if name = "easeOutBounce" then some bounceOut
  else if name = "easeInOutBounce" then
    some (fun t =>
      if t < 1/2 then (1 - bounceOut (1 - 2 * t)) / 2
      else (1 + bounceOut (2 * t - 1)) / 2)
  else none

/-- Source: `getEasingFunction` from `curves.ts`: absent curve → linear; a name is
looked up in the table, falling back to linear (`?? easingFunctions.linear`);
a `CubicBezierCurve` object builds the bezier solver. -/
def getEasingFunction (M : HostMath) : Option EasingCurve → (ℚ → ℚ)
  | none => fun t => t
  | some (.named n) => (easingFunctions M n).getD (fun t => t)
  | some (.cubicBezier x1 y1 x2 y2) => cubicBezierFn x1 y1 x2 y2

-- ─── src/timeline/pathMorph.ts ───────────────────────────────────────────────

/-- Command letters `M L H V C S Q T A Z` (absolute after parsing). -/
inductive CommandType where
  | M
  | L
  | H
  | V
  | C
  | S
  | Q
  | T
  | A
  | Z
deriving Repr, DecidableEq

/-- Source: `PathCommand` from `pathMorph.ts`. -/
structure PathCommand where
  type : CommandType
  relative : Bool
  params : List ℚ
deriving Repr, DecidableEq

/-- Source: `CubicSegment` from `pathMorph.ts` — an absolute cubic `C` with six params. -/
structure CubicSegment where
  cx1 : ℚ
  cy1 : ℚ
  cx2 : ℚ
  cy2 : ℚ
  x : ℚ
  y : ℚ
deriving Repr, DecidableEq

/-- Source: `NormalizedPath` from `pathMorph.ts`. -/
structure NormalizedPath where
  startX : ℚ
  startY : ℚ
  segments : List CubicSegment
  closed : Bool
deriving Repr, DecidableEq

/-- Maps a command letter to its command type and relative flag (lowercase
letters are relative), mirroring the `CMD_RE` character class. -/
def cmdOfChar : Char → Option (CommandType × Bool)
  | 'M' => some (.M, false)
  | 'm' => some (.M, true)
  | 'L' => some (.L, false)
  | 'l' => some (.L, true)
  | 'H' => some (.H, false)
  | 'h' => some (.H, true)
  | 'V' => some (.V, false)
  | 'v' => some (.V, true)
  | 'C' => some (.C, false)
  | 'c' => some (.C, true)
  | 'S' => some (.S, false)
  | 's' => some (.S, true)
  | 'Q' => some (.Q, false)
  | 'q' => some (.Q, true)
  | 'T' => some (.T, false)
  | 't' => some (.T, true)
  | 'A' => some (.A, false)
  | 'a' => some (.A, true)
  | 'Z' => some (.Z, false)
  | 'z' => some (.Z, true)
  | _ => none

/-- Source: `d.split(CMD_RE)` with a capturing group keeps the command letters as
their own tokens; the source then filters out whitespace-only tokens. -/
def splitTokens (d : String) : List String :=
  let step := fun (acc : List String × String) (c : Char) =>
    if (cmdOfChar c).isSome then (acc.1 ++ [acc.2, String.singleton c], "")
    else (acc.1, acc.2.push c)
  let fin := d.toList.foldl step ([], "")
  (fin.1 ++ [fin.2]).filter (fun s => s.trim.length > 0)

def digitsToNat (ds : List Char) : ℕ :=
  ds.foldl (fun acc c => acc * 10 + (c.toNat - 48)) 0

/-- One match attempt of the number regex `-?\d*\.?\d+(?:e[+-]?\d+)?` at the
head of `cs` (with the regex's backtracking semantics: a trailing `.` with no
digit after it is not consumed; an `e` with no digits after it is not
consumed).  Returns the value and the unconsumed suffix. -/
def matchNumberAt (cs : List Char) : Option (ℚ × List Char) :=
  let sgn := match cs with
    | '-' :: rest => (true, rest)
    | _ => (false, cs)
  let ip := sgn.2.span Char.isDigit
  let body : Option ((ℕ × ℕ × ℕ) × List Char) :=
    match ip.2 with
    | '.' :: cs3 =>
      let fp := cs3.span Char.isDigit
      if fp.1.isEmpty then
        if ip.1.isEmpty then none else some ((digitsToNat ip.1, 0, 0), ip.2)
      else some ((digitsToNat ip.1, digitsToNat fp.1, fp.1.length), fp.2)
    | _ => if ip.1.isEmpty then none else some ((digitsToNat ip.1, 0, 0), ip.2)
  match body with
  | none => none
  | some ((iv, fv, fl), cs5) =>
    let mant : ℚ := (iv : ℚ) + (fv : ℚ) / (10 : ℚ) ^ fl
    let ex : ℤ × List Char :=
      match cs5 with
      | c :: cs7 =>
        if c = 'e' ∨ c = 'E' then
          let es : ℤ × List Char := match cs7 with
            | '+' :: r => (1, r)
            | '-' :: r => (-1, r)
            | _ => (1, cs7)
          let eds := es.2.span Char.isDigit
          if eds.1.isEmpty then (0, cs5) else (es.1 * (digitsToNat eds.1 : ℤ), eds.2)
        else (0, cs5)
      | [] => (0, cs5)
    let v : ℚ := (if sgn.1 then -1 else 1) * mant * (10 : ℚ) ^ ex.1
    some (v, ex.2)

/-- Global scan of the number regex (`String.prototype.match` with `/g`):
try a match at each position, emitting matches and skipping one character on
failure.  Every successful match consumes at least one character, so
`s.length` steps of fuel are exactly enough. -/
def scanNumbersGo : ℕ → List Char → List ℚ
  | 0, _ => []
  | _ + 1, [] => []
  | fuel + 1, c :: rest =>
    match matchNumberAt (c :: rest) with
    | some (q, rest') => q :: scanNumbersGo fuel rest'
    | none => scanNumbersGo fuel rest

/-- Source: `parseNumbers` from `pathMorph.ts`. -/
def parseNumbers (s : String) : List ℚ :=
  scanNumbersGo s.length s.toList

/-- Parameter counts per command (`paramCounts` table in `parsePathD`). -/
def paramCount : CommandType → ℕ
  | .M => 2
  | .L => 2
  | .H => 1
  | .V => 1
  | .C => 6
  | .S => 4
  | .Q => 4
  | .T => 2
  | .A => 7
  | .Z => 0

/-- Source: `toAbsolute` from `pathMorph.ts`. -/
def toAbsolute (ty : CommandType) (params : List ℚ) (curX curY : ℚ)
    (isRelative : Bool) : List ℚ :=
  if ¬isRelative then params
  else
    let p := fun i => params.getD i 0
    match ty with
    | .M => [p 0 + curX, p 1 + curY]
    | .L => [p 0 + curX, p 1 + curY]
    | .T => [p 0 + curX, p 1 + curY]
    | .H => [p 0 + curX]
    | .V => [p 0 + curY]
    | .C => [p 0 + curX, p 1 + curY, p 2 + curX, p 3 + curY, p 4 + curX, p 5 + curY]
    | .S => [p 0 + curX, p 1 + curY, p 2 + curX, p 3 + curY]
    | .Q => [p 0 + curX, p 1 + curY, p 2 + curX, p 3 + curY]
    | .A => [p 0, p 1, p 2, p 3, p 4, p 5 + curX, p 6 + curY]
    | .Z => params

/-- Running parse cursor of `parsePathD`. -/
structure ParseCursor where
  curX : ℚ := 0
  curY : ℚ := 0
  startX : ℚ := 0
  startY : ℚ := 0
deriving Repr, DecidableEq

/-- Cursor update after one absolute parameter group (`switch (type)` at the
end of the group loop in `parsePathD`); keyed on the original type. -/
def updateCursor (ty : CommandType) (abs : List ℚ) (st : ParseCursor) : ParseCursor :=
  let a := fun i => abs.getD i 0
  match ty with
  | .M => { st with curX := a 0, curY := a 1, startX := a 0, startY := a 1 }
  | .L => { st with curX := a 0, curY := a 1 }
  | .T => { st with curX := a 0, curY := a 1 }
  | .H => { st with curX := a 0 }
  | .V => { st with curY := a 0 }
  | .C => { st with curX := a 4, curY := a 5 }
  | .S => { st with curX := a 2, curY := a 3 }
  | .Q => { st with curX := a 2, curY := a 3 }
  | .A => { st with curX := a 5, curY := a 6 }
  | .Z => st

/-- The implicit-repeat group loop of `parsePathD`
(`while (j < nums.length || j === 0)`): consume full groups of
`paramCount ty` numbers; a too-short group breaks; groups after the first of
an `M` are recorded as `L`. -/
def processGroups (ty : CommandType) (isRel : Bool) (nums : List ℚ)
    (st : ParseCursor) (first : Bool) : List PathCommand × ParseCursor :=
  if paramCount ty = 0 ∨ nums.length < paramCount ty then ([], st)
  else
    let grp := nums.take (paramCount ty)
    let abs := toAbsolute ty grp st.curX st.curY isRel
    let ity := if ty = .M ∧ ¬first then CommandType.L else ty
    let st' := updateCursor ty abs st
    let rec_ := processGroups ty isRel (nums.drop (paramCount ty)) st' false
    ({ type := ity, relative := false, params := abs } :: rec_.1, rec_.2)
termination_by nums.length
decreasing_by
  simp only [List.length_drop]
  omega

/-- Token loop of `parsePathD`: a non-command token advances by one; a
command letter consumes itself and the following token as its parameter
string (advancing by two), `Z` records a close and snaps the cursor to the
subpath start. -/
def parsePathGo (toks : List String) (st : ParseCursor) : List PathCommand :=
  match toks with
  | [] => []
  | tok :: rest =>
    let letter := tok.trim
    match letter.toList with
    | [c] =>
      match cmdOfChar c with
      | some (ty, isRel) =>
        let paramStr := rest.headD ""
        let nums := parseNumbers paramStr
        if ty = .Z then
          { type := .Z, relative := false, params := [] } ::
            parsePathGo rest.tail { st with curX := st.startX, curY := st.startY }
        else
          let res := processGroups ty isRel nums st true
          res.1 ++ parsePathGo rest.tail res.2
      | none => parsePathGo rest st
    | _ => parsePathGo rest st
termination_by toks.length
decreasing_by
  all_goals simp only [List.length_tail, List.length_cons]
  all_goals omega

/-- Source: `parsePathD` from `pathMorph.ts`. -/
def parsePathD (d : String) : List PathCommand :=
  parsePathGo (splitTokens d) {}

/-- Source: `lineToCubic` from `pathMorph.ts`. -/
def lineToCubic (x1 y1 x2 y2 : ℚ) : CubicSegment :=
  { cx1 := x1 + (x2 - x1) / 3
    cy1 := y1 + (y2 - y1) / 3
    cx2 := x1 + 2 * (x2 - x1) / 3
    cy2 := y1 + 2 * (y2 - y1) / 3
    x := x2
    y := y2 }

/-- Source: `quadToCubic` from `pathMorph.ts` (degree elevation). -/
def quadToCubic (x0 y0 qx qy x y : ℚ) : CubicSegment :=
  { cx1 := x0 + 2/3 * (qx - x0)
    cy1 := y0 + 2/3 * (qy - y0)
    cx2 := x + 2/3 * (qx - x)
    cy2 := y + 2/3 * (qy - y)
    x := x
    y := y }

/-- Source: `angleBetween` from `pathMorph.ts`. -/
def angleBetween (M : HostMath) (ux uy vx vy : ℚ) : ℚ :=
  let dot := ux * vx + uy * vy
  let len := M.sqrt (ux * ux + uy * uy) * M.sqrt (vx * vx + vy * vy)
  let angle := M.acos (max (-1) (min 1 (dot / len)))
  if ux * vy - uy * vx < 0 then -angle else angle

/-- Source: `arcSegmentToCubic` from `pathMorph.ts`. -/
def arcSegmentToCubic (M : HostMath) (cx cy rx ry phi theta1 theta2 : ℚ) :
    CubicSegment :=
  let alpha := M.sin (theta2 - theta1) *
    (M.sqrt (4 + 3 * M.tan ((theta2 - theta1) / 2) ^ 2) - 1) / 3
  let cosPhi := M.cos phi
  let sinPhi := M.sin phi
  let p1x := rx * M.cos theta1
  let p1y := ry * M.sin theta1
  let p2x := rx * M.cos theta2
  let p2y := ry * M.sin theta2
  let d1x := -rx * M.sin theta1
  let d1y := ry * M.cos theta1
  let d2x := -rx * M.sin theta2
  let d2y := ry * M.cos theta2
  { cx1 := cx + cosPhi * (p1x + alpha * d1x) - sinPhi * (p1y + alpha * d1y)
    cy1 := cy + sinPhi * (p1x + alpha * d1x) + cosPhi * (p1y + alpha * d1y)
    cx2 := cx + cosPhi * (p2x - alpha * d2x) - sinPhi * (p2y - alpha * d2y)
    cy2 := cy + sinPhi * (p2x - alpha * d2x) + cosPhi * (p2y - alpha * d2y)
    x := cx + cosPhi * p2x - sinPhi * p2y
    y := cy + sinPhi * p2x + cosPhi * p2y }

/-- Source: `arcToCubics` from `pathMorph.ts` (endpoint-to-center conversion, then a
split into sub-arcs of at most π/2). -/
def arcToCubics (M : HostMath) (x1 y1 rx0 ry0 xAxisRotation largeArc sweep x2 y2 : ℚ) :
    List CubicSegment :=
  if rx0 = 0 ∨ ry0 = 0 then [lineToCubic x1 y1 x2 y2]
  else
    let phi := xAxisRotation * M.pi / 180
    let cosPhi := M.cos phi
    let sinPhi := M.sin phi
    let dx2 := (x1 - x2) / 2
    let dy2 := (y1 - y2) / 2
    let x1p := cosPhi * dx2 + sinPhi * dy2
    let y1p := -sinPhi * dx2 + cosPhi * dy2
    let x1pSq := x1p * x1p
    let y1pSq := y1p * y1p
    let lambda := x1pSq / (rx0 * rx0) + y1pSq / (ry0 * ry0)
    let rx := if lambda > 1 then rx0 * M.sqrt lambda else rx0
    let ry := if lambda > 1 then ry0 * M.sqrt lambda else ry0
    let rxSq := rx * rx
    let rySq := ry * ry
    let num0 := rxSq * rySq - rxSq * y1pSq - rySq * x1pSq
    let den := rxSq * y1pSq + rySq * x1pSq
    let num := if num0 < 0 then 0 else num0
    let sq := M.sqrt (num / den)
    let sign : ℚ := if largeArc = sweep then -1 else 1
    let cxp := sign * sq * (rx * y1p / ry)
    let cyp := sign * sq * -(ry * x1p / rx)
    let cx := cosPhi * cxp - sinPhi * cyp + (x1 + x2) / 2
    let cy := sinPhi * cxp + cosPhi * cyp + (y1 + y2) / 2
    let theta1 := angleBetween M 1 0 ((x1p - cxp) / rx) ((y1p - cyp) / ry)
    let dtheta0 := angleBetween M ((x1p - cxp) / rx) ((y1p - cyp) / ry)
      ((-x1p - cxp) / rx) ((-y1p - cyp) / ry)
    let dtheta1 := if sweep = 0 ∧ dtheta0 > 0 then dtheta0 - 2 * M.pi else dtheta0
    let dtheta := if sweep = 1 ∧ dtheta1 < 0 then dtheta1 + 2 * M.pi else dtheta1
    let segCount := (Rat.ceil (jsAbs dtheta / (M.pi / 2))).toNat
    let segAngle := dtheta / (segCount : ℚ)
    (List.range segCount).map (fun i =>
      arcSegmentToCubic M cx cy rx ry phi (theta1 + (i : ℚ) * segAngle)
        (theta1 + ((i : ℚ) + 1) * segAngle))

/-- Running state of `normalizeToCubic`. -/
structure NormSt where
  curX : ℚ := 0
  curY : ℚ := 0
  startX : ℚ := 0
  startY : ℚ := 0
  lastCx : ℚ := 0
  lastCy : ℚ := 0
  lastQx : ℚ := 0
  lastQy : ℚ := 0
  lastType : CommandType := .M
  pathStartX : ℚ := 0
  pathStartY : ℚ := 0
  segments : List CubicSegment := []

/-- One step of `normalizeToCubic`'s command loop. -/
def normStep (M : HostMath) (st : NormSt) (cmd : PathCommand) : NormSt :=
  let p := fun i => cmd.params.getD i 0
  let st' :=
    match cmd.type with
    | .M =>
      { st with curX := p 0, curY := p 1, startX := p 0, startY := p 1
                pathStartX := p 0, pathStartY := p 1 }
    | .L =>
      { st with segments := st.segments ++ [lineToCubic st.curX st.curY (p 0) (p 1)]
                curX := p 0, curY := p 1 }
    | .H =>
      { st with segments := st.segments ++ [lineToCubic st.curX st.curY (p 0) st.curY]
                curX := p 0 }
    | .V =>
      { st with segments := st.segments ++ [lineToCubic st.curX st.curY st.curX (p 0)]
                curY := p 0 }
    | .C =>
      { st with segments := st.segments ++
                  [({ cx1 := p 0, cy1 := p 1, cx2 := p 2, cy2 := p 3, x := p 4, y := p 5 } : CubicSegment)]
                lastCx := p 2, lastCy := p 3, curX := p 4, curY := p 5 }
    | .S =>
      let rcx := if st.lastType = CommandType.C ∨ st.lastType = CommandType.S then 2 * st.curX - st.lastCx else st.curX
      let rcy := if st.lastType = CommandType.C ∨ st.lastType = CommandType.S then 2 * st.curY - st.lastCy else st.curY
      { st with segments := st.segments ++
                  [({ cx1 := rcx, cy1 := rcy, cx2 := p 0, cy2 := p 1, x := p 2, y := p 3 } : CubicSegment)]
                lastCx := p 0, lastCy := p 1, curX := p 2, curY := p 3 }
    | .Q =>
      { st with segments := st.segments ++
                  [quadToCubic st.curX st.curY (p 0) (p 1) (p 2) (p 3)]
                lastQx := p 0, lastQy := p 1, curX := p 2, curY := p 3 }
    | .T =>
      let rqx := if st.lastType = CommandType.Q ∨ st.lastType = CommandType.T then 2 * st.curX - st.lastQx else st.curX
      let rqy := if st.lastType = CommandType.Q ∨ st.lastType = CommandType.T then 2 * st.curY - st.lastQy else st.curY
      { st with segments := st.segments ++
                  [quadToCubic st.curX st.curY rqx rqy (p 0) (p 1)]
                lastQx := rqx, lastQy := rqy, curX := p 0, curY := p 1 }
    | .A =>
      { st with segments := st.segments ++
                  arcToCubics M st.curX st.curY (p 0) (p 1) (p 2) (p 3) (p 4) (p 5) (p 6)
                curX := p 5, curY := p 6 }
    | .Z =>
      let st1 :=
        if st.curX ≠ st.startX ∨ st.curY ≠ st.startY then
          { st with segments := st.segments ++ [lineToCubic st.curX st.curY st.startX st.startY] }
        else st
      { st1 with curX := st.startX, curY := st.startY }
  { st' with lastType := cmd.type }

/-- Source: `normalizeToCubic` from `pathMorph.ts`. -/
def normalizeToCubic (M : HostMath) (commands : List PathCommand) : NormalizedPath :=
  let st := commands.foldl (normStep M) {}
  { startX := st.pathStartX
    startY := st.pathStartY
    segments := st.segments
    closed := commands.length > 0 ∧
      (commands.getLastD { type := .M, relative := false, params := [] }).type = .Z }

/-- Source: `lerp` helper from `pathMorph.ts` / `interpolate.ts`. -/
def lerp (a b t : ℚ) : ℚ := a + (b - a) * t

/-- Source: `segmentLength` from `pathMorph.ts` (average of chord and control-polygon
length, via the host's `Math.hypot`). -/
def segmentLength (M : HostMath) (startX startY : ℚ) (s : CubicSegment) : ℚ :=
  let chord := M.hypot (s.x - startX) (s.y - startY)
  let controlNet := M.hypot (s.cx1 - startX) (s.cy1 - startY) +
    M.hypot (s.cx2 - s.cx1) (s.cy2 - s.cy1) +
    M.hypot (s.x - s.cx2) (s.y - s.cy2)
  (chord + controlNet) / 2

/-- The longest-segment scan of `subdivideAtLongest` (index of the first
strictly-longest segment; the running start point is each segment's
predecessor end point). -/
def findLongestAux (M : HostMath) : List CubicSegment → ℚ → ℚ → ℕ → ℕ → ℚ → ℕ
  | [], _, _, _, best, _ => best
  | s :: rest, px, py, i, best, bestLen =>
    let len := segmentLength M px py s
    if len > bestLen then findLongestAux M rest s.x s.y (i + 1) i len
    else findLongestAux M rest s.x s.y (i + 1) best bestLen

def findLongestIdx (M : HostMath) (segs : List CubicSegment) (sx sy : ℚ) : ℕ :=
  findLongestAux M segs sx sy 0 0 0

/-- The start-point scan of `subdivideAtLongest`
(`for i in 0..longestIdx: sx = segments[i].x ...`). -/
def segStartAux : List CubicSegment → ℚ → ℚ → ℕ → ℚ × ℚ
  | _, sx, sy, 0 => (sx, sy)
  | [], sx, sy, _ + 1 => (sx, sy)
  | s :: rest, _, _, k + 1 => segStartAux rest s.x s.y k

/-- Source: `splitCubicAt` from `pathMorph.ts` (De Casteljau). -/
def splitCubicAt (x0 y0 : ℚ) (seg : CubicSegment) (t : ℚ) :
    CubicSegment × CubicSegment :=
  let ax := lerp x0 seg.cx1 t
  let ay := lerp y0 seg.cy1 t
  let bx := lerp seg.cx1 seg.cx2 t
  let by_ := lerp seg.cy1 seg.cy2 t
  let cx := lerp seg.cx2 seg.x t
  let cy := lerp seg.cy2 seg.y t
  let dx := lerp ax bx t
  let dy := lerp ay by_ t
  let ex := lerp bx cx t
  let ey := lerp by_ cy t
  let fx := lerp dx ex t
  let fy := lerp dy ey t
  ({ cx1 := ax, cy1 := ay, cx2 := dx, cy2 := dy, x := fx, y := fy },
   { cx1 := ex, cy1 := ey, cx2 := cx, cy2 := cy, x := seg.x, y := seg.y })

/-- Source: `subdivideAtLongest` from `pathMorph.ts`: splits the longest segment at
t = 0.5 in place (`splice(longestIdx, 1, first, second)`); an empty segment
list is returned unchanged. -/
def subdivideAtLongest (M : HostMath) (segments : List CubicSegment)
    (startX startY : ℚ) : List CubicSegment :=
  if segments.isEmpty then segments
  else
    let longestIdx := findLongestIdx M segments startX startY
    let sp := segStartAux segments startX startY longestIdx
    let seg := segments.getD longestIdx { cx1 := 0, cy1 := 0, cx2 := 0, cy2 := 0, x := 0, y := 0 }
    let fs := splitCubicAt sp.1 sp.2 seg (1/2)
    segments.take longestIdx ++ [fs.1, fs.2] ++ segments.drop (longestIdx + 1)

/-- One `while (segs.length < target)` loop of `balanceCommands`.  In the
source the loop runs unboundedly; every iteration on a non-empty list grows
it by exactly one segment, so `target` iterations of fuel are enough
whenever the source loop terminates.  When the list is empty the source
loop never makes progress (it diverges); the model then returns the
still-short list once the fuel is spent. -/
def growTo (M : HostMath) (sx sy : ℚ) : ℕ → List CubicSegment → ℕ → List CubicSegment
  | 0, segs, _ => segs
  | fuel + 1, segs, target =>
    if segs.length < target then
      growTo M sx sy fuel (subdivideAtLongest M segs sx sy) target
    else segs

/-- Source: `balanceCommands` from `pathMorph.ts`. -/
def balanceCommands (M : HostMath) (a b : NormalizedPath) :
    NormalizedPath × NormalizedPath :=
  let segsA := growTo M a.startX a.startY b.segments.length a.segments b.segments.length
  let segsB := growTo M b.startX b.startY segsA.length b.segments segsA.length
  ({ a with segments := segsA }, { b with segments := segsB })

/-- Strips trailing `'0'` characters from a fractional-digit string. -/
def trimTrailingZeros (s : String) : String :=
  String.mk ((s.toList.reverse.dropWhile (fun c => c = '0')).reverse)

def zeroPadTo (k : ℕ) (s : String) : String :=
  String.mk (List.replicate (k - s.length) '0') ++ s

/-- Decimal rendering of `m / 1000` for an integer `m`, as produced by the
source's `(Math.round(n * 1000) / 1000).toString()` (shortest decimal:
integer part, then up to three fractional digits without trailing zeros). -/
def decimalOfThousandths (m : ℤ) : String :=
  let sign := if m < 0 then "-" else ""
  let n := m.natAbs
  let ip := n / 1000
  let fp := n % 1000
  if fp = 0 then sign ++ toString ip
  else sign ++ toString ip ++ "." ++ trimTrailingZeros (zeroPadTo 3 (toString fp))

/-- Source: `round` from `pathMorph.ts`: `(Math.round(n * 1000) / 1000).toString()`. -/
def roundStr (n : ℚ) : String :=
  decimalOfThousandths (jsRound (n * 1000))

/-- Source: `lerpPath` from `pathMorph.ts`: parse → normalize → balance → lerp the
control points; `t ≤ 0` and `t ≥ 1` short-circuit to the input strings. -/
def lerpPath (M : HostMath) (pathA pathB : String) (t : ℚ) : String :=
  if t ≤ 0 then pathA
  else if t ≥ 1 then pathB
  else
    let bal := balanceCommands M (normalizeToCubic M (parsePathD pathA))
      (normalizeToCubic M (parsePathD pathB))
    let normA := bal.1
    let normB := bal.2
    let sx := lerp normA.startX normB.startX t
    let sy := lerp normA.startY normB.startY t
    let head := "M" ++ roundStr sx ++ "," ++ roundStr sy
    let body := List.zipWith (fun (a b : CubicSegment) =>
      " C" ++ roundStr (lerp a.cx1 b.cx1 t) ++ "," ++ roundStr (lerp a.cy1 b.cy1 t) ++
      " " ++ roundStr (lerp a.cx2 b.cx2 t) ++ "," ++ roundStr (lerp a.cy2 b.cy2 t) ++
      " " ++ roundStr (lerp a.x b.x t) ++ "," ++ roundStr (lerp a.y b.y t))
      normA.segments normB.segments
    let d := head ++ String.join body
    if normA.closed ∧ normB.closed then d ++ " Z" else d

-- ─── src/timeline/interpolate.ts ─────────────────────────────────────────────

/-- Source: `ActorState` from `interpolate.ts` — the engine's per-query output. -/
structure ActorState where
  position : Point
  scale : ScaleVal
  rotation : ℚ
  opacity : ℚ
  fill : Option String := none
  stroke : Option String := none
  strokeWidth : Option ℚ := none
  strokeAlign : Option String := none
  blurRadius : Option ℚ := none
  backdropBlur : Option ℚ := none
  width : Option ℚ := none
  height : Option ℚ := none
  fillGradient : Option GradientDef := none
  strokeGradient : Option GradientDef := none
  pathD : Option String := none
deriving Repr, DecidableEq

/-- Source: `InterpolateOptions` from `interpolate.ts`. -/
structure InterpolateOptions where
  gradients : Option (List GradientDef) := none
  actorId : Option String := none

/-- A registered plugin's interpolation hooks (`PluginSystem.ts`).  Only the
two hooks the interpolation engine consumes are carried. -/
structure MotionSvgPlugin where
  name : String := ""
  version : String := ""
  beforeInterpolate : Option (List Keyframe → ℚ → List Keyframe) := none
  afterInterpolate : Option (ActorState → String → ℚ → ActorState) := none

/-- Source: `plugins.has('beforeInterpolate')`. -/
def pluginsHasBefore (ps : List MotionSvgPlugin) : Bool :=
  ps.any (fun p => p.beforeInterpolate.isSome)

/-- Source: `plugins.run('beforeInterpolate', ...)`: chain each plugin's hook over
the previous result. -/
def pluginsRunBefore (ps : List MotionSvgPlugin) (kfs : List Keyframe)
    (timeMs : ℚ) : List Keyframe :=
  ps.foldl (fun acc p =>
    match p.beforeInterpolate with
    | some f => f acc timeMs
    | none => acc) kfs

/-- Source: `plugins.has('afterInterpolate')`. -/
def pluginsHasAfter (ps : List MotionSvgPlugin) : Bool :=
  ps.any (fun p => p.afterInterpolate.isSome)

/-- Source: `plugins.run('afterInterpolate', ...)`. -/
def pluginsRunAfter (ps : List MotionSvgPlugin) (st : ActorState)
    (actorId : String) (timeMs : ℚ) : ActorState :=
  ps.foldl (fun acc p =>
    match p.afterInterpolate with
    | some f => f acc actorId timeMs
    | none => acc) st

/-- Loop of `_findBracket`: scan keyframes in order, skipping those that do
not define the property; a defining keyframe with `at ≤ timeMs` becomes the
running `prev`, the first defining keyframe with `at > timeMs` is `next`
(the loop breaks there). -/
def _findBracketGo (timeMs : ℚ) (has : Keyframe → Bool) :
    List Keyframe → Option Keyframe → Option Keyframe × Option Keyframe
  | [], prev => (prev, none)
  | kf :: rest, prev =>
    if ¬has kf then _findBracketGo timeMs has rest prev
    else if kf.«at» ≤ timeMs then _findBracketGo timeMs has rest (some kf)
    else (prev, some kf)

/-- Source: `_findBracket` from `interpolate.ts`. -/
def _findBracket (keyframes : List Keyframe) (timeMs : ℚ)
    (has : Keyframe → Bool) : Option Keyframe × Option Keyframe :=
  _findBracketGo timeMs has keyframes none

/-- Source: `_easedT` from `interpolate.ts` (easing comes from the target keyframe;
`raw` is 0 when the bracket has zero or negative duration). -/
def _easedT (M : HostMath) (prev next : Keyframe) (timeMs : ℚ) : ℚ :=
  let dur := next.«at» - prev.«at»
  let raw := if dur > 0 then (timeMs - prev.«at») / dur else 0
  getEasingFunction M next.curve raw

/-- Source: `lerpPoint` from `interpolate.ts`. -/
def lerpPoint (a b : Point) (t : ℚ) : Point :=
  { x := lerp a.x b.x t, y := lerp a.y b.y t }

/-- Source: `lerpScale` from `interpolate.ts`: scalar↔point interpolation, collapsing
back to a scalar when x and y agree within `0.0001`. -/
def lerpScale (a b : ScaleVal) (t : ℚ) : ScaleVal :=
  let ax := match a with | .num v => v | .pt p => p.x
  let ay := match a with | .num v => v | .pt p => p.y
  let bx := match b with | .num v => v | .pt p => p.x
  let by_ := match b with | .num v => v | .pt p => p.y
  let rx := lerp ax bx t
  let ry := lerp ay by_ t
  if jsAbs (rx - ry) < 1/10000 then .num rx else .pt { x := rx, y := ry }

/-- JS truthiness of an optional string (`!a` is true for `undefined` and
for the empty string). -/
def jsFalsyStr : Option String → Bool
  | none => true
  | some s => s = ""

/-- Hexadecimal digit value. -/
def hexDigitVal (c : Char) : Option ℕ :=
  if '0' ≤ c ∧ c ≤ '9' then some (c.toNat - 48)
  else if 'a' ≤ c ∧ c ≤ 'f' then some (c.toNat - 87)
  else if 'A' ≤ c ∧ c ≤ 'F' then some (c.toNat - 55)
  else none

def parseHex2 (c1 c2 : Char) : Option ℕ := do
  let h1 ← hexDigitVal c1
  let h2 ← hexDigitVal c2
  pure (h1 * 16 + h2)

/-- Source: `parseHexToRgb` from `interpolate.ts`.  The source checks only the
length (3 or 6 after stripping `#`) and calls `parseInt(_, 16)`, which
yields `NaN` on non-hex digits; `NaN` has no rational counterpart, so the
model reports such strings as unparseable (`none`).  No claim touches this
corner (in both flows the value is not a channel-wise blend of the inputs). -/
def parseHexToRgb (hex : String) : Option (ℚ × ℚ × ℚ) :=
  let h := if hex.startsWith "#" then hex.drop 1 else hex
  match h.toList with
  | [a, b, c] => do
    let r ← parseHex2 a a
    let g ← parseHex2 b b
    let bl ← parseHex2 c c
    pure ((r : ℚ), (g : ℚ), (bl : ℚ))
  | [a, b, c, d, e, f] => do
    let r ← parseHex2 a b
    let g ← parseHex2 c d
    let bl ← parseHex2 e f
    pure ((r : ℚ), (g : ℚ), (bl : ℚ))
  | _ => none

/-- The `clamp`/`hex` helpers of `rgbToHex`. -/
def clampByte (v : ℚ) : ℕ := ((max 0 (min 255 (jsRound v))).toNat)

def hexByte (v : ℚ) : String :=
  zeroPadTo 2 (String.mk (Nat.toDigits 16 (clampByte v)))

/-- Source: `rgbToHex` from `interpolate.ts`. -/
def rgbToHex (r g b : ℚ) : String :=
  "#" ++ hexByte r ++ hexByte g ++ hexByte b

/-- Source: `lerpColor` from `interpolate.ts` (hex-only channel-wise blend;
unparseable endpoints snap at t = 0.5). -/
def lerpColor (a b : Option String) (t : ℚ) : Option String :=
  if jsFalsyStr a ∧ jsFalsyStr b then none
  else if jsFalsyStr a then b
  else if jsFalsyStr b then a
  else if a = b then a
  else
    match parseHexToRgb (a.getD ""), parseHexToRgb (b.getD "") with
    | some (r1, g1, b1), some (r2, g2, b2) =>
      some (rgbToHex (r1 + (r2 - r1) * t) (g1 + (g2 - g1) * t) (b1 + (b2 - b1) * t))
    | _, _ => if t < 1/2 then a else b

def isPrefixOfChars : List Char → List Char → Bool
  | [], _ => true
  | _ :: _, [] => false
  | a :: as_, b :: bs => a == b && isPrefixOfChars as_ bs

def findSubstrIdx : List Char → List Char → Option ℕ
  | hay, needle =>
    if isPrefixOfChars needle hay then some 0
    else match hay with
      | [] => none
      | _ :: rest => (findSubstrIdx rest needle).map (· + 1)

/-- Source: `ref.match(/url\(#(.+)\)/)?.[1]`: the leftmost occurrence of `url(#`,
with the greedy capture extending to the last `)` of the string (and the
capture must be non-empty). -/
def matchUrlRef (ref : String) : Option String :=
  match findSubstrIdx ref.toList ("url(#".toList) with
  | none => none
  | some i =>
    let rest := ref.toList.drop (i + 5)
    match rest.reverse.findIdx? (fun c => c = ')') with
    | none => none
    | some k =>
      let j := rest.length - 1 - k
      if j ≥ 1 then some (String.mk (rest.take j)) else none

/-- Source: `resolveGradient` from `interpolate.ts`. -/
def resolveGradient (ref : String) (gradients : List GradientDef) :
    Option GradientDef :=
  match matchUrlRef ref with
  | none => none
  | some id => gradients.find? (fun g => g.gid = id)

/-- Source: `ColorResult` from `interpolate.ts`. -/
structure ColorResult where
  color : Option String := none
  gradient : Option GradientDef := none
deriving Repr, DecidableEq

/-- Source: `resolveResult` from `interpolate.ts` (both arms of the source's
ternary produce an undefined `gradient`). -/
def resolveResult (value : String) (gradients : List GradientDef) : ColorResult :=
  if value.startsWith "url(" then
    match resolveGradient value gradients with
    | some _ => { color := some value, gradient := none }
    | none => { color := some value }
  else { color := some value }

/-- Source: `colorToUniformGradient` from `interpolate.ts` (threads the gradient-id
counter explicitly; the generated id is `__uniform_<counter>_<now36>`). -/
def colorToUniformGradient (now36 : ℕ → String) (color : String)
    (target : GradientDef) (ctr : ℕ) : GradientDef × ℕ :=
  let stops := target.stops.map (fun s =>
    { offset := s.offset, color := color, opacity := s.opacity })
  let ctr' := ctr + 1
  let id := "__uniform_" ++ toString ctr' ++ "_" ++ now36 ctr'
  match target with
  | .linear g =>
    (.linear { id := id, x1 := g.x1, y1 := g.y1, x2 := g.x2, y2 := g.y2,
               stops := stops, gradientUnits := g.gradientUnits }, ctr')
  | .radial g =>
    (.radial { id := id, cx := g.cx, cy := g.cy, r := g.r, fx := g.fx, fy := g.fy,
               stops := stops, gradientUnits := g.gradientUnits }, ctr')

/-- The surrounding-stop search inside `normalizeStops` (first adjacent pair
whose offsets bracket the target; defaults to the list's first and last). -/
def findSurrounding (targetOffset : ℚ) (dLo dHi : GradientStop) :
    List GradientStop → GradientStop × GradientStop
  | s1 :: s2 :: rest =>
    if s1.offset ≤ targetOffset ∧ targetOffset ≤ s2.offset then (s1, s2)
    else findSurrounding targetOffset dLo dHi (s2 :: rest)
  | _ => (dLo, dHi)

/-- Source: `normalizeStops` from `interpolate.ts`: resample a stop list to exactly
`count` stops at evenly spaced offsets. -/
def normalizeStops (stops : List GradientStop) (count : ℕ) : List GradientStop :=
  if stops.length = count then stops
  else if stops.isEmpty then
    (List.range count).map (fun i =>
      { offset := if count > 1 then (i : ℚ) / ((count : ℚ) - 1) else 0,
        color := "#000000" })
  else
    let dLo := stops.headD { offset := 0, color := "" }
    let dHi := stops.getLastD { offset := 0, color := "" }
    (List.range count).map (fun i =>
      let targetOffset : ℚ := if count > 1 then (i : ℚ) / ((count : ℚ) - 1) else 0
      let lohi := findSurrounding targetOffset dLo dHi stops
      let lo := lohi.1
      let hi := lohi.2
      let range := hi.offset - lo.offset
      let localT := if range > 0 then (targetOffset - lo.offset) / range else 0
      let color :=
        match parseHexToRgb lo.color, parseHexToRgb hi.color with
        | some (r1, g1, b1), some (r2, g2, b2) =>
          rgbToHex (r1 + (r2 - r1) * localT) (g1 + (g2 - g1) * localT)
            (b1 + (b2 - b1) * localT)
        | _, _ => if localT < 1/2 then lo.color else hi.color
      { offset := targetOffset
        color := color
        opacity :=
          if lo.opacity.isSome ∨ hi.opacity.isSome then
            some (lerp (lo.opacity.getD 1) (hi.opacity.getD 1) localT)
          else none })

/-- Source: `lerpGradientDef` from `interpolate.ts`: resample both stop lists to the
longer count and blend per stop; linear↔linear geometry interpolates in
polar form (center, half-length, shortest-path angle), radial↔radial
interpolates fields directly, and cross-type snaps to the source type below
t = 0.5 and to the target type at or above it (the source's two redundant
inner branches produce the same object).  Threads the gradient-id counter;
the generated id is `__interp_<counter>_<now36>`. -/
def lerpGradientDef (M : HostMath) (now36 : ℕ → String) (a b : GradientDef)
    (t : ℚ) (ctr : ℕ) : GradientDef × ℕ :=
  let cnt := max a.stops.length b.stops.length
  let stopsA := normalizeStops a.stops cnt
  let stopsB := normalizeStops b.stops cnt
  let stops := stopsA.enum.map (fun isa =>
    let sa := isa.2
    let sb := stopsB.getD isa.1 sa
    let color :=
      match parseHexToRgb sa.color, parseHexToRgb sb.color with
      | some (r1, g1, b1), some (r2, g2, b2) =>
        rgbToHex (r1 + (r2 - r1) * t) (g1 + (g2 - g1) * t) (b1 + (b2 - b1) * t)
      | _, _ => if t < 1/2 then sa.color else sb.color
    { offset := lerp sa.offset sb.offset t
      color := color
      opacity :=
        if sa.opacity.isSome ∨ sb.opacity.isSome then
          some (lerp (sa.opacity.getD 1) (sb.opacity.getD 1) t)
        else none })
  let ctr' := ctr + 1
  let id := "__interp_" ++ toString ctr' ++ "_" ++ now36 ctr'
  match a, b with
  | .linear la, .linear lb =>
    let cxA := (la.x1 + la.x2) / 2
    let cyA := (la.y1 + la.y2) / 2
    let cxB := (lb.x1 + lb.x2) / 2
    let cyB := (lb.y1 + lb.y2) / 2
    let dxA := la.x2 - la.x1
    let dyA := la.y2 - la.y1
    let dxB := lb.x2 - lb.x1
    let dyB := lb.y2 - lb.y1
    let lenA := M.sqrt (dxA * dxA + dyA * dyA) / 2
    let lenB := M.sqrt (dxB * dxB + dyB * dyB) / 2
    let angA := M.atan2 dyA dxA
    let angB := M.atan2 dyB dxB
    let delta0 := angB - angA
    let delta1 := if delta0 > M.pi then delta0 - 2 * M.pi else delta0
    let delta := if delta1 < -M.pi then delta1 + 2 * M.pi else delta1
    let ang := angA + delta * t
    let cx := lerp cxA cxB t
    let cy := lerp cyA cyB t
    let len := lerp lenA lenB t
    let cosv := M.cos ang
    let sinv := M.sin ang
    (.linear { id := id
               x1 := cx - len * cosv
               y1 := cy - len * sinv
               x2 := cx + len * cosv
               y2 := cy + len * sinv
               stops := stops
               gradientUnits := lb.gradientUnits.orElse (fun _ => la.gradientUnits) },
     ctr')
  | .radial ra, .radial rb =>
    (.radial { id := id
               cx := lerp ra.cx rb.cx t
               cy := lerp ra.cy rb.cy t
               r := lerp ra.r rb.r t
               fx := if ra.fx.isSome ∨ rb.fx.isSome then
                       some (lerp (ra.fx.getD ra.cx) (rb.fx.getD rb.cx) t)
                     else none
               fy := if ra.fy.isSome ∨ rb.fy.isSome then
                       some (lerp (ra.fy.getD ra.cy) (rb.fy.getD rb.cy) t)
                     else none
               stops := stops
               gradientUnits := rb.gradientUnits.orElse (fun _ => ra.gradientUnits) },
     ctr')
  | _, _ =>
    if t < 1/2 then
      match a with
      | .linear la => (.linear { la with id := id, stops := stops }, ctr')
      | .radial ra => (.radial { ra with id := id, stops := stops }, ctr')
    else
      match b with
      | .linear lb => (.linear { lb with id := id, stops := stops }, ctr')
      | .radial rb => (.radial { rb with id := id, stops := stops }, ctr')

/-- Source: `lerpColorOrGradient` from `interpolate.ts`. -/
def lerpColorOrGradient (M : HostMath) (now36 : ℕ → String) (a b : Option String)
    (t : ℚ) (gradients : List GradientDef) (ctr : ℕ) : ColorResult × ℕ :=
  if jsFalsyStr a ∧ jsFalsyStr b then ({}, ctr)
  else if jsFalsyStr a then (resolveResult (b.getD "") gradients, ctr)
  else if jsFalsyStr b then (resolveResult (a.getD "") gradients, ctr)
  else if a = b then (resolveResult (a.getD "") gradients, ctr)
  else
    let av := a.getD ""
    let bv := b.getD ""
    let aIsGrad := av.startsWith "url("
    let bIsGrad := bv.startsWith "url("
    if ¬aIsGrad ∧ ¬bIsGrad then ({ color := lerpColor a b t }, ctr)
    else if aIsGrad ∧ bIsGrad then
      match resolveGradient av gradients, resolveGradient bv gradients with
      | some gradA, some gradB =>
        let bl := lerpGradientDef M now36 gradA gradB t ctr
        ({ color := some ("url(#" ++ bl.1.gid ++ ")"), gradient := some bl.1 }, bl.2)
      | _, _ => ({ color := if t < 1/2 then a else b }, ctr)
    else
      let colorVal := if aIsGrad then bv else av
      let gradRef := if aIsGrad then av else bv
      match resolveGradient gradRef gradients with
      | some gradDef =>
        let ug := colorToUniformGradient now36 colorVal gradDef ctr
        let _effectiveT := if aIsGrad then t else 1 - t
        let bl :=
          if aIsGrad then lerpGradientDef M now36 gradDef ug.1 t ug.2
          else lerpGradientDef M now36 ug.1 gradDef t ug.2
        ({ color := some ("url(#" ++ bl.1.gid ++ ")"), gradient := some bl.1 }, bl.2)
      | none => ({ color := if t < 1/2 then a else b }, ctr)

/-- Source: `_interpNum` from `interpolate.ts`. -/
def _interpNum (M : HostMath) (kfs : List Keyframe) (t : ℚ)
    (get : Keyframe → Option ℚ) (dflt : ℚ) : ℚ :=
  match _findBracket kfs t (fun kf => (get kf).isSome) with
  | (none, none) => dflt
  | (none, some n) => (get n).getD dflt
  | (some p, none) => (get p).getD 0
  | (some p, some n) => lerp ((get p).getD 0) ((get n).getD 0) (_easedT M p n t)

/-- Source: `_interpOptNum` from `interpolate.ts`. -/
def _interpOptNum (M : HostMath) (kfs : List Keyframe) (t : ℚ)
    (get : Keyframe → Option ℚ) : Option ℚ :=
  match _findBracket kfs t (fun kf => (get kf).isSome) with
  | (none, none) => none
  | (none, some n) => get n
  | (some p, none) => get p
  | (some p, some n) => some (lerp ((get p).getD 0) ((get n).getD 0) (_easedT M p n t))

/-- Source: `_interpPoint` from `interpolate.ts`. -/
def _interpPoint (M : HostMath) (kfs : List Keyframe) (t : ℚ)
    (get : Keyframe → Option Point) (dflt : Point) : Point :=
  match _findBracket kfs t (fun kf => (get kf).isSome) with
  | (none, none) => dflt
  | (none, some n) => (get n).getD dflt
  | (some p, none) => (get p).getD dflt
  | (some p, some n) =>
    lerpPoint ((get p).getD dflt) ((get n).getD dflt) (_easedT M p n t)

/-- Source: `_interpScale` from `interpolate.ts`. -/
def _interpScale (M : HostMath) (kfs : List Keyframe) (t : ℚ) : ScaleVal :=
  match _findBracket kfs t (fun kf => kf.scale.isSome) with
  | (none, none) => .num 1
  | (none, some n) => n.scale.getD (.num 1)
  | (some p, none) => p.scale.getD (.num 1)
  | (some p, some n) =>
    lerpScale (p.scale.getD (.num 1)) (n.scale.getD (.num 1)) (_easedT M p n t)

/-- Source: `_interpColor` from `interpolate.ts` (threads the gradient-id counter). -/
def _interpColor (M : HostMath) (now36 : ℕ → String) (kfs : List Keyframe)
    (t : ℚ) (get : Keyframe → Option String) (gradients : List GradientDef)
    (ctr : ℕ) : ColorResult × ℕ :=
  match _findBracket kfs t (fun kf => (get kf).isSome) with
  | (none, none) => ({}, ctr)
  | (none, some n) => (resolveResult ((get n).getD "") gradients, ctr)
  | (some p, none) => (resolveResult ((get p).getD "") gradients, ctr)
  | (some p, some n) =>
    lerpColorOrGradient M now36 (get p) (get n) (_easedT M p n t) gradients ctr

/-- Source: `_interpSnap` from `interpolate.ts` (no interpolation; `prev` wins). -/
def _interpSnap {α : Type} (kfs : List Keyframe) (t : ℚ)
    (get : Keyframe → Option α) : Option α :=
  match _findBracket kfs t (fun kf => (get kf).isSome) with
  | (none, none) => none
  | (none, some n) => get n
  | (some p, _) => get p

/-- Source: `_interpPath` from `interpolate.ts`. -/
def _interpPath (M : HostMath) (kfs : List Keyframe) (t : ℚ) : Option String :=
  match _findBracket kfs t (fun kf => kf.pathD.isSome) with
  | (none, none) => none
  | (none, some n) => n.pathD
  | (some p, none) => p.pathD
  | (some p, some n) =>
    some (lerpPath M (p.pathD.getD "") (n.pathD.getD "") (_easedT M p n t))

/-- Source: `interpolateKeyframes` from `interpolate.ts`.  The global plugin
registry is the explicit `ps` argument; the module-level gradient-id counter
enters as `ctr` (the fill channel is resolved first, the stroke channel sees
the counter it leaves behind, exactly as the two source calls do). -/
def interpolateKeyframes (M : HostMath) (ps : List MotionSvgPlugin)
    (now36 : ℕ → String) (ctr : ℕ) (keyframes : List Keyframe) (timeMs : ℚ)
    (opts : InterpolateOptions) : ActorState :=
  if keyframes.isEmpty then
    { position := { x := 0, y := 0 }, scale := .num 1, rotation := 0, opacity := 1 }
  else
    let kfs := if pluginsHasBefore ps then pluginsRunBefore ps keyframes timeMs
               else keyframes
    let gradients := opts.gradients.getD []
    let fillR := _interpColor M now36 kfs timeMs (fun kf => kf.fill) gradients ctr
    let strokeR := _interpColor M now36 kfs timeMs (fun kf => kf.stroke) gradients fillR.2
    let state : ActorState :=
      { position := _interpPoint M kfs timeMs (fun kf => kf.position) { x := 0, y := 0 }
        scale := _interpScale M kfs timeMs
        rotation := _interpNum M kfs timeMs (fun kf => kf.rotation) 0
        opacity := _interpNum M kfs timeMs (fun kf => kf.opacity) 1
        fill := fillR.1.color
        stroke := strokeR.1.color
        strokeWidth := _interpOptNum M kfs timeMs (fun kf => kf.strokeWidth)
        strokeAlign := _interpSnap kfs timeMs (fun kf => kf.strokeAlign)
        blurRadius := _interpOptNum M kfs timeMs (fun kf => kf.blurRadius)
        backdropBlur := _interpOptNum M kfs timeMs (fun kf => kf.backdropBlur)
        width := _interpOptNum M kfs timeMs (fun kf => kf.width)
        height := _interpOptNum M kfs timeMs (fun kf => kf.height)
        fillGradient := fillR.1.gradient
        strokeGradient := strokeR.1.gradient
        pathD := _interpPath M kfs timeMs }
    if pluginsHasAfter ps then pluginsRunAfter ps state (opts.actorId.getD "") timeMs
    else state

/-- Source: `Timeline` from `types.ts`. -/
structure Timeline where
  id : String
  actorId : String
  keyframes : List Keyframe
  duration : ℚ
deriving Repr, DecidableEq

/-- Source: `getActorStateAtTime` from `interpolate.ts`. -/
def getActorStateAtTime (M : HostMath) (ps : List MotionSvgPlugin)
    (now36 : ℕ → String) (ctr : ℕ) (tl : Timeline) (timeMs : ℚ)
    (opts : InterpolateOptions) : ActorState :=
  interpolateKeyframes M ps now36 ctr tl.keyframes timeMs
    { opts with actorId := some tl.actorId }

-- ─── src/timeline/timeline.ts ────────────────────────────────────────────────

/-- The fields of `Actor` (`types.ts`) that the embedded core reads.  The
parser-side fields (`pathIds`, `paths`, `shapeType`, grouping) belong to the
out-of-scope scene/parsing layer and are never consulted by the timeline
constructor or the interpolation engine. -/
structure Actor where
  id : String
  origin : Point
  position : Point := { x := 0, y := 0 }
  scale : ScaleVal := .num 1
  rotation : ℚ := 0
  opacity : ℚ := 1
  blurRadius : ℚ := 0
  backdropBlur : ℚ := 0
  z : ℚ := 0
deriving Repr, DecidableEq

/-- Source: `TimelineConfig` from `types.ts`. -/
structure TimelineConfig where
  keyframes : List Keyframe
deriving Repr, DecidableEq

/-- Source: `[...config.keyframes].sort((a, b) => a.at - b.at)`: ECMAScript
`Array.prototype.sort` is a stable sort by the comparator; for the
consistent comparator `a.at - b.at` every stable sort produces the same
list, modelled by a stable insertion sort under `a.at ≤ b.at`. -/
def sortKeyframes (kfs : List Keyframe) : List Keyframe :=
  kfs.insertionSort (fun k1 k2 => k1.«at» ≤ k2.«at»)

/-- Source: `timeline(actor, config)` from `timeline.ts`.  The module-level
`timelineCounter` becomes the explicit `counter` argument (the call
increments it and uses the incremented value in the generated id); the
thrown `Error` becomes the `Except` error branch.  Note the back-filled
first keyframe is rebuilt from an explicit field list that does not include
`width`, `height` or `pathD`. -/
def timeline (counter : ℕ) (actor : Actor) (config : TimelineConfig) :
    Except String Timeline :=
  if config.keyframes.isEmpty then
    .error ("motion-svg: timeline for actor \"" ++ actor.id ++
      "\" needs at least one keyframe.")
  else
    let counter' := counter + 1
    let sorted := sortKeyframes config.keyframes
    match sorted with
    | [] => .error "motion-svg: unreachable (sorting preserves non-emptiness)"
    | first :: rest =>
      let filledFirst : Keyframe :=
        { «at» := first.«at»
          position := some (first.position.getD actor.origin)
          scale := some (first.scale.getD (.num 1))
          rotation := some (first.rotation.getD 0)
          opacity := some (first.opacity.getD 1)
          fill := first.fill
          stroke := first.stroke
          strokeWidth := first.strokeWidth
          strokeAlign := first.strokeAlign
          blurRadius := first.blurRadius
          backdropBlur := first.backdropBlur
          curve := first.curve }
      let kfs := filledFirst :: rest
      let duration := (kfs.getLastD filledFirst).«at»
      .ok { id := "tl-" ++ actor.id ++ "-" ++ toString counter'
            actorId := actor.id
            keyframes := kfs
            duration := duration }

-- ─── src/trigger/trigger.ts ──────────────────────────────────────────────────

/-- A JS `number` that may be `Infinity` (the loop trigger's `iterations`
accepts `Infinity`; every other numeric trigger field is finite in
practice, but the type is uniform). -/
inductive JsNum where
  | fin (q : ℚ)
  | inf
deriving Repr, DecidableEq

/-- Source: `n < 0` on a possibly-infinite JS number (`Infinity < 0` is false). -/
def JsNum.ltZero : JsNum → Bool
  | .fin q => decide (q < 0)
  | .inf => false

/-- Source: `TriggerConfig` from `types.ts`.  At runtime the variants are
duck-typed records discriminated by the `type` string (the TS union is
erased), so the model is one record of all optional fields with a string
tag — this is what lets an unrecognized tag reach `validateTrigger`. -/
structure TriggerConfig where
  type : String
  target : Option String := none
  reverse : Option Bool := none
  toggle : Option Bool := none
  iterations : Option JsNum := none
  direction : Option String := none
  delay : Option ℚ := none
  start : Option ℚ := none
  «end» : Option ℚ := none
  threshold : Option ℚ := none
  once : Option Bool := none
deriving Repr, DecidableEq

/-- Source: `TriggerBinding` from `types.ts`. -/
structure TriggerBinding where
  timelineId : String
  config : TriggerConfig
deriving Repr, DecidableEq

/-- Source: `validateTrigger` from `trigger.ts` (the thrown errors become `Except`
errors; a check like `config.iterations !== undefined && config.iterations < 0`
becomes `Option.any`). -/
def validateTrigger (config : TriggerConfig) : Except String Unit :=
  if config.type = "hover" then .ok ()
  else if config.type = "click" then .ok ()
  else if config.type = "loop" then
    if config.iterations.any JsNum.ltZero then
      .error "motion-svg: loop trigger iterations must be >= 0 (or Infinity)."
    else if config.delay.any (fun d => decide (d < 0)) then
      .error "motion-svg: loop trigger delay must be >= 0."
    else .ok ()
  else if config.type = "scroll" then
    if config.start.any (fun s => decide (s < 0) || decide (s > 1)) then
      .error "motion-svg: scroll trigger start must be between 0 and 1."
    else if config.«end».any (fun e => decide (e < 0) || decide (e > 1)) then
      .error "motion-svg: scroll trigger end must be between 0 and 1."
    else .ok ()
  else if config.type = "appear" then
    if config.threshold.any (fun th => decide (th < 0) || decide (th > 1)) then
      .error "motion-svg: appear trigger threshold must be between 0 and 1."
    else .ok ()
  else if config.type = "manual" then .ok ()
  else .error ("motion-svg: unknown trigger type \"" ++ config.type ++ "\".")

/-- Source: `trigger(tl, config)` from `trigger.ts`.  The source returns a shallow
copy `{ ...config }`; values are immutable here, so the copy is the config
itself. -/
def trigger (tl : Timeline) (config : TriggerConfig) : Except String TriggerBinding :=
  match validateTrigger config with
  | .error e => .error e
  | .ok _ => .ok { timelineId := tl.id, config := config }

-- ─── src/trigger/playback.ts ─────────────────────────────────────────────────

/-- Source: `PlaybackState` from `types.ts`. -/
inductive PlayState where
  | idle
  | playing
  | paused
  | finished
deriving Repr, DecidableEq

/-- Source: `PlaybackEventType` from `types.ts`. -/
inductive EventType where
  | start
  | play
  | pause
  | stop
  | seek
  | reverse
  | frame
  | complete
  | repeat
deriving Repr, DecidableEq

/-- One observable emission of the controller: either an `onUpdate` callback
(carrying the mapped timeline time handed to `getActorStateAtTime`) or a
typed playback event (carrying the `iteration` payload when present).  The
source skips building the event object when no handler is subscribed; the
model records every `emit` call, i.e. what a subscriber to every event type
observes. -/
inductive PBEvent where
  | update (timeMs : ℚ)
  | event (t : EventType) (iteration : Option ℕ)
deriving Repr, DecidableEq

/-- The loop-trigger parameters `createPlayback` distils from its optional
trigger binding (lines computing `triggerType`, `loopIterations`,
`loopDirection`, `loopDelay`): a non-loop (or absent) trigger gets a budget
of 1 iteration, direction `normal` and no delay; a loop trigger defaults to
`Infinity` iterations. -/
structure LoopParams where
  iterations : JsNum
  direction : String
  delay : ℚ
deriving Repr, DecidableEq

def loopParamsOf (trig : Option TriggerBinding) : LoopParams :=
  match trig with
  | some tb =>
    if tb.config.type = "loop" then
      { iterations := tb.config.iterations.getD .inf
        direction := tb.config.direction.getD "normal"
        delay := tb.config.delay.getD 0 }
    else { iterations := .fin 1, direction := "normal", delay := 0 }
  | none => { iterations := .fin 1, direction := "normal", delay := 0 }

/-- The controller's mutable closure state (`state`, `currentTime`,
`direction`, `_playbackRate`, `_totalDuration`, `lastFrameTime`,
`iterationCount`, `hasStarted`).  The `rafId` handle is host-side
scheduling bookkeeping with no bearing on the state machine's values and is
not carried. -/
structure PBState where
  state : PlayState
  currentTime : ℚ
  direction : ℚ
  playbackRate : ℚ
  totalDuration : ℚ
  lastFrameTime : Option ℚ
  iterationCount : ℕ
  hasStarted : Bool
deriving Repr, DecidableEq

/-- The fresh closure state of `createPlayback(options)`. -/
def pbInitial (tl : Timeline) (initialRate : Option ℚ) : PBState :=
  { state := .idle
    currentTime := 0
    direction := 1
    playbackRate := initialRate.getD 1
    totalDuration := tl.duration
    lastFrameTime := none
    iterationCount := 0
    hasStarted := false }

/-- Source: `iterationCount >= loopIterations` (`count >= Infinity` is false). -/
def jsGeIterations (count : ℕ) : JsNum → Bool
  | .fin q => decide ((count : ℚ) ≥ q)
  | .inf => false

/-- Source: `tick(now)` from `playback.ts`.  A tick outside the `playing` state is a
no-op; the first tick after (re)starting only records `lastFrameTime`.
Otherwise the cursor advances by `(now − last) × direction × |rate|` and the
bound checks run exactly as in the source: hitting a bound clamps the
cursor, pushes an update and a `frame` event, bumps the iteration counter,
and either finishes (`complete`) or repeats (`repeat` with the new count)
applying the loop direction; a configured positive loop delay parks the
controller in `paused` (the host timer that later resumes it is
`pbDelayResume`).  In the non-bound case the update carries the cursor
mapped through `timeScale = tl.duration / totalDuration` (capped at the
timeline duration). -/
def pbTick (tl : Timeline) (L : LoopParams) (now : ℚ) (s : PBState) :
    PBState × List PBEvent :=
  if s.state ≠ .playing then (s, [])
  else
    match s.lastFrameTime with
    | none => ({ s with lastFrameTime := some now }, [])
    | some last =>
      let rawDelta := now - last
      let delta := rawDelta * s.direction * jsAbs s.playbackRate
      let ct := s.currentTime + delta
      let s1 := { s with lastFrameTime := some now, currentTime := ct }
      let timeScale := tl.duration / s1.totalDuration
      if ct ≥ s1.totalDuration then
        let s2 := { s1 with currentTime := s1.totalDuration,
                            iterationCount := s1.iterationCount + 1 }
        let evs := [PBEvent.update tl.duration, PBEvent.event .frame none]
        if jsGeIterations s2.iterationCount L.iterations then
          ({ s2 with state := .finished }, evs ++ [PBEvent.event .complete none])
        else
          let evs := evs ++ [PBEvent.event .repeat (some s2.iterationCount)]
          let s3 :=
            if L.direction = "alternate" then
              { s2 with direction := -1, currentTime := s2.totalDuration }
            else if L.direction = "reverse" then
              { s2 with currentTime := s2.totalDuration, direction := -1 }
            else
              { s2 with currentTime := 0 }
          if L.delay > 0 then ({ s3 with state := .paused }, evs)
          else (s3, evs)
      else if ct ≤ 0 then
        let s2 := { s1 with currentTime := 0,
                            iterationCount := s1.iterationCount + 1 }
        let evs := [PBEvent.update 0, PBEvent.event .frame none]
        if jsGeIterations s2.iterationCount L.iterations then
          ({ s2 with state := .finished }, evs ++ [PBEvent.event .complete none])
        else
          let evs := evs ++ [PBEvent.event .repeat (some s2.iterationCount)]
          let s3 :=
            if L.direction = "alternate" then
              { s2 with direction := 1, currentTime := 0 }
            else s2
          (s3, evs)
      else
        (s1, [PBEvent.update (min (ct * timeScale) tl.duration),
              PBEvent.event .frame none])

/-- The `setTimeout` callback a positive loop delay schedules: if the
controller is still `paused`, resume playing with a reset frame clock. -/
def pbDelayResume (s : PBState) : PBState :=
  if s.state = .paused then { s with state := .playing, lastFrameTime := none }
  else s

/-- Source: `play()` from `playback.ts`. -/
def pbPlay (s : PBState) : PBState × List PBEvent :=
  let wasIdle := s.state = .idle ∨ s.state = .finished
  let s1 :=
    if s.state = .finished then
      { s with currentTime := if s.direction = 1 then 0 else s.totalDuration
               iterationCount := 0 }
    else s
  let s2 := { s1 with state := .playing, direction := 1, lastFrameTime := none }
  if ¬s2.hasStarted ∨ wasIdle then
    ({ s2 with hasStarted := true },
     [PBEvent.event .start none, PBEvent.event .play none])
  else (s2, [PBEvent.event .play none])

/-- Source: `pause()` from `playback.ts`. -/
def pbPause (s : PBState) : PBState × List PBEvent :=
  ({ s with state := .paused, lastFrameTime := none }, [PBEvent.event .pause none])

/-- Source: `stop()` from `playback.ts` (resets everything and pushes one update at
time 0 before the `stop` event). -/
def pbStop (s : PBState) : PBState × List PBEvent :=
  ({ s with state := .idle, currentTime := 0, direction := 1,
            iterationCount := 0, hasStarted := false, lastFrameTime := none },
   [PBEvent.update 0, PBEvent.event .stop none])

/-- Source: `seek(timeMs)` from `playback.ts`. -/
def pbSeek (tl : Timeline) (timeMs : ℚ) (s : PBState) : PBState × List PBEvent :=
  let ct := max 0 (min timeMs s.totalDuration)
  let timeScale := tl.duration / s.totalDuration
  ({ s with currentTime := ct },
   [PBEvent.update (min (ct * timeScale) tl.duration), PBEvent.event .seek none])

/-- Source: `reverse()` from `playback.ts`. -/
def pbReverse (s : PBState) : PBState × List PBEvent :=
  let s1 := { s with direction := if s.direction = 1 then -1 else 1 }
  let s2 := if s1.state ≠ .playing then
      { s1 with state := .playing, lastFrameTime := none }
    else s1
  (s2, [PBEvent.event .reverse none])

/-- Drive a sequence of host ticks, concatenating the emissions. -/
def pbRunTicks (tl : Timeline) (L : LoopParams) :
    PBState → List ℚ → PBState × List PBEvent
  | s, [] => (s, [])
  | s, now :: rest =>
    let r := pbTick tl L now s
    let r' := pbRunTicks tl L r.1 rest
    (r'.1, r.2 ++ r'.2)

/-- Does a `PBEvent` carry the given event type? -/
def eventHasType (t : EventType) : PBEvent → Bool
  | .event t' _ => t' = t
  | .update _ => false

/-- Number of events of a given type in an emission list. -/
def countType (evs : List PBEvent) (t : EventType) : ℕ :=
  (evs.filter (eventHasType t)).length

-- ─── Observables and concrete instances used by the verification ─────────────

/-- A concrete rational stand-in for the host math library, used to
instantiate host-parametric theorems at concrete inputs (its values satisfy
the analytic hypotheses those theorems need: `sqrt` is positive on
positives, `cos² + sin²` is positive everywhere). -/
def qHostMath : HostMath :=
  { pi := 314159/100000
    sqrt := fun x => jsAbs x
    sin := fun _ => 0
    cos := fun _ => 1
    tan := fun _ => 0
    acos := fun _ => 0
    atan2 := fun _ _ => 0
    hypot := fun a b => jsAbs a + jsAbs b
    exp2 := fun _ => 1 }

/-- A trivial gradient-id clock environment for concrete instantiations. -/
def qNow36 : ℕ → String := fun _ => "0"

/-- Squared length of a linear gradient's direction vector (0 for radial). -/
def linDirLenSq : GradientDef → ℚ
  | .linear g => (g.x2 - g.x1) ^ 2 + (g.y2 - g.y1) ^ 2
  | .radial _ => 0

def GradientDef.isLinear : GradientDef → Bool
  | .linear _ => true
  | .radial _ => false

/-- Final end point of a segment list (the path start point when empty). -/
def segsLastPt (segs : List CubicSegment) (dflt : ℚ × ℚ) : ℚ × ℚ :=
  match segs.getLast? with
  | some s => (s.x, s.y)
  | none => dflt

/-- Keyframe list of a timeline-construction result (empty on error). -/
def tlKeyframesOf : Except String Timeline → List Keyframe
  | .ok tl => tl.keyframes
  | .error _ => []

/-- Duration of a timeline-construction result (0 on error). -/
def tlDurationOf : Except String Timeline → ℚ
  | .ok tl => tl.duration
  | .error _ => 0

/-- A placeholder keyframe used as `headD`/`getLastD` default. -/
def kfDefault : Keyframe := { «at» := 0 }

/-- Loop-budget invariant tying a controller state to the events emitted so
far when the iteration budget is the finite integer `n`: `complete` has been
emitted exactly once iff the controller is `finished`; the number of
`repeat` events equals the iteration counter (less one once finished); the
counter reaches exactly `n` on finishing and stays below `n` before. -/
def c8Inv (n : ℕ) (s : PBState) (evs : List PBEvent) : Prop :=
  countType evs .complete = (if s.state = .finished then 1 else 0) ∧
  countType evs .repeat + (if s.state = .finished then 1 else 0) = s.iterationCount ∧
  (s.state = .finished → s.iterationCount = n) ∧
  (s.state ≠ .finished → s.iterationCount < n)

/-- Infinite-budget invariant: `complete` never fires and the controller
never finishes. -/
def c8InfInv (s : PBState) (evs : List PBEvent) : Prop :=
  countType evs .complete = 0 ∧ s.state ≠ .finished

-- concrete inputs for witnesses / counterexamples

def c2KfA : Keyframe := { «at» := 0, opacity := some 1 }

def c2KfB : Keyframe := { «at» := 1000, opacity := some 0, curve := some (.named "linear") }

def c1Kf : Keyframe := { «at» := 0, fill := some "#ff0000" }

def c4OneSeg : NormalizedPath :=
  { startX := 0, startY := 0
    segments := [{ cx1 := 1, cy1 := 1, cx2 := 2, cy2 := 2, x := 3, y := 3 }]
    closed := false }

def c4FourSeg : NormalizedPath :=
  { startX := 5, startY := 5
    segments :=
      [{ cx1 := 6, cy1 := 6, cx2 := 7, cy2 := 7, x := 8, y := 8 },
       { cx1 := 9, cy1 := 9, cx2 := 10, cy2 := 10, x := 11, y := 11 },
       { cx1 := 12, cy1 := 12, cx2 := 13, cy2 := 13, x := 14, y := 14 },
       { cx1 := 15, cy1 := 15, cx2 := 16, cy2 := 16, x := 17, y := 17 }]
    closed := false }

def c4EmptySeg : NormalizedPath :=
  { startX := 0, startY := 0, segments := [], closed := false }

def c5GradA : LinearGradientDef :=
  { id := "ga", x1 := 0, y1 := 0, x2 := 2, y2 := 0
    stops := [{ offset := 0, color := "#000000" }, { offset := 1, color := "#ffffff" }] }

def c5GradB : LinearGradientDef :=
  { id := "gb", x1 := 2, y1 := 0, x2 := 0, y2 := 0
    stops := [{ offset := 0, color := "#ffffff" }, { offset := 1, color := "#000000" }] }

def exActor : Actor := { id := "hero", origin := { x := 50, y := 50 } }

def exTimeline : Timeline :=
  { id := "tl-hero-1", actorId := "hero"
    keyframes := [{ «at» := 0 }, { «at» := 100 }], duration := 100 }

def c8Trig : TriggerBinding :=
  { timelineId := "tl-hero-1"
    config := { type := "loop", iterations := some (.fin 3), direction := some "normal" } }

def c9LoopRev : LoopParams := { iterations := .fin 3, direction := "reverse", delay := 0 }

/-- A controller mid-flight: playing backwards at 5 ms with one iteration
already counted, about to hit the lower time bound. -/
def c9LowState : PBState :=
  { state := .playing, currentTime := 5, direction := -1, playbackRate := 1
    totalDuration := 100, lastFrameTime := some 0, iterationCount := 1
    hasStarted := true }

/-- An upper-bound analogue for witnessing the amended behaviour. -/
def c9UpState : PBState :=
  { state := .playing, currentTime := 95, direction := 1, playbackRate := 1
    totalDuration := 100, lastFrameTime := some 0, iterationCount := 1
    hasStarted := true }

def c9LoopAlt : LoopParams := { iterations := .fin 3, direction := "alternate", delay := 0 }

def c6CfgDropped : TimelineConfig :=
  { keyframes := [{ «at» := 0, width := some 10, height := some 20, pathD := some "M0,0" }] }

def c6CfgTwo : TimelineConfig :=
  { keyframes := [{ «at» := 1000, scale := some (.num 2) },
                  { «at» := 0, fill := some "#ff0000", rotation := some 45 }] }

-- ─── Theorems ────────────────────────────────────────────────────────────────

/-- C10: called with an empty keyframe list, `interpolateKeyframes` does not
fail and returns the default actor state — position (0,0), scale 1,
rotation 0, opacity 1, with every optional field absent — for every plugin
registry, host math, id environment, counter, query time and options, i.e.
without invoking any plugin hook. -/
theorem c10_empty_keyframes_default (M : HostMath) (ps : List MotionSvgPlugin)
    (now36 : ℕ → String) (ctr : ℕ) (timeMs : ℚ) (opts : InterpolateOptions) :
    interpolateKeyframes M ps now36 ctr [] timeMs opts =
      { position := { x := 0, y := 0 }, scale := .num 1, rotation := 0, opacity := 1 } :=
  rfl

/-- C3: `lerpPath` returns the literal first input string whenever `t ≤ 0`
and the literal second input string whenever `t ≥ 1`, for every pair of
outline path strings (byte-for-byte: the returned `String` is the input
itself, not a re-serialization). -/
theorem c3_lerpPath_boundaries (M : HostMath) (a b : String) (t : ℚ) :
    (t ≤ 0 → lerpPath M a b t = a) ∧ (1 ≤ t → lerpPath M a b t = b) := by
  constructor
  · intro h
    simp [lerpPath, h]
  · intro h
    have h0 : ¬t ≤ 0 := by linarith
    simp [lerpPath, h0, h]

/-- Witness for C3 at `t = 0` and `t = 1` on concrete path strings. -/
theorem c3_witness :
    lerpPath qHostMath "M0,0 L10,0" "M0,0 L0,10" 0 = "M0,0 L10,0" ∧
    lerpPath qHostMath "M0,0 L10,0" "M0,0 L0,10" 1 = "M0,0 L0,10" :=
  ⟨(c3_lerpPath_boundaries qHostMath "M0,0 L10,0" "M0,0 L0,10" 0).1 le_rfl,
   (c3_lerpPath_boundaries qHostMath "M0,0 L10,0" "M0,0 L0,10" 1).2 le_rfl⟩

theorem findBracketGo_all_absent (t : ℚ) (has : Keyframe → Bool)
    (kfs : List Keyframe) (prev : Option Keyframe)
    (h : ∀ kf ∈ kfs, has kf = false) :
    _findBracketGo t has kfs prev = (prev, none) := by
  induction kfs generalizing prev with
  | nil => rfl
  | cons kf rest ih =>
    have hkf : has kf = false := h kf (by simp)
    rw [_findBracketGo, if_pos (by simp [hkf])]
    exact ih prev (fun k hk => h k (by simp [hk]))

theorem findBracket_all_absent (kfs : List Keyframe) (t : ℚ)
    (has : Keyframe → Bool) (h : ∀ kf ∈ kfs, has kf = false) :
    _findBracket kfs t has = (none, none) :=
  findBracketGo_all_absent t has kfs none h

theorem findBracketGo_filter (t : ℚ) (has : Keyframe → Bool)
    (kfs : List Keyframe) (prev : Option Keyframe) :
    _findBracketGo t has (kfs.filter has) prev = _findBracketGo t has kfs prev := by
  induction kfs generalizing prev with
  | nil => rfl
  | cons kf rest ih =>
    by_cases hk : has kf
    · by_cases hle : kf.«at» ≤ t
      · simp [List.filter_cons, _findBracketGo, hk, hle, ih]
      · simp [List.filter_cons, _findBracketGo, hk, hle]
    · have hkf : has kf = false := by simpa using hk
      simp [List.filter_cons, _findBracketGo, hkf, ih]

theorem findBracket_filter (kfs : List Keyframe) (t : ℚ) (has : Keyframe → Bool) :
    _findBracket (kfs.filter has) t has = _findBracket kfs t has :=
  findBracketGo_filter t has kfs none

/-- C1: each property is resolved only from the keyframes that define it.
For every keyframe list, query time, host math, id environment and options,
and for a plugin registry with no interpolation hooks installed: if no
keyframe defines a property (equivalently, no keyframe at-or-before the
query time and none strictly after defines it), the corresponding output
field of `interpolateKeyframes` is absent (`none`) — regardless of which
other properties the keyframes define; and the `position` output is
unchanged when all keyframes not defining `position` are discarded, so a
keyframe that defines only `fill` never creates a hold segment for
`position` (whose value falls back to the global default (0,0) when no
keyframe defines it). -/
theorem c1_property_independence (M : HostMath) (ps : List MotionSvgPlugin)
    (now36 : ℕ → String) (ctr : ℕ) (kfs : List Keyframe) (t : ℚ)
    (opts : InterpolateOptions)
    (hb : pluginsHasBefore ps = false) (ha : pluginsHasAfter ps = false) :
    ((∀ kf ∈ kfs, kf.fill = none) →
      (interpolateKeyframes M ps now36 ctr kfs t opts).fill = none ∧
      (interpolateKeyframes M ps now36 ctr kfs t opts).fillGradient = none) ∧
    ((∀ kf ∈ kfs, kf.stroke = none) →
      (interpolateKeyframes M ps now36 ctr kfs t opts).stroke = none ∧
      (interpolateKeyframes M ps now36 ctr kfs t opts).strokeGradient = none) ∧
    ((∀ kf ∈ kfs, kf.strokeWidth = none) →
      (interpolateKeyframes M ps now36 ctr kfs t opts).strokeWidth = none) ∧
    ((∀ kf ∈ kfs, kf.strokeAlign = none) →
      (interpolateKeyframes M ps now36 ctr kfs t opts).strokeAlign = none) ∧
    ((∀ kf ∈ kfs, kf.blurRadius = none) →
      (interpolateKeyframes M ps now36 ctr kfs t opts).blurRadius = none) ∧
    ((∀ kf ∈ kfs, kf.backdropBlur = none) →
      (interpolateKeyframes M ps now36 ctr kfs t opts).backdropBlur = none) ∧
    ((∀ kf ∈ kfs, kf.width = none) →
      (interpolateKeyframes M ps now36 ctr kfs t opts).width = none) ∧
    ((∀ kf ∈ kfs, kf.height = none) →
      (interpolateKeyframes M ps now36 ctr kfs t opts).height = none) ∧
    ((∀ kf ∈ kfs, kf.pathD = none) →
      (interpolateKeyframes M ps now36 ctr kfs t opts).pathD = none) ∧
    ((∀ kf ∈ kfs, kf.position = none) →
      (interpolateKeyframes M ps now36 ctr kfs t opts).position = { x := 0, y := 0 }) ∧
    ((interpolateKeyframes M ps now36 ctr kfs t opts).position =
      (interpolateKeyframes M ps now36 ctr
        (kfs.filter (fun kf => kf.position.isSome)) t opts).position) := by
  by_cases hnil : kfs = []
  · subst hnil
    refine ⟨fun _ => ⟨rfl, rfl⟩, fun _ => ⟨rfl, rfl⟩, fun _ => rfl, fun _ => rfl,
      fun _ => rfl, fun _ => rfl, fun _ => rfl, fun _ => rfl, fun _ => rfl,
      fun _ => rfl, rfl⟩
  · have hne : kfs.isEmpty = false := by
      cases kfs with
      | nil => exact absurd rfl hnil
      | cons k l => rfl
    refine ⟨?_, ?_, ?_, ?_, ?_, ?_, ?_, ?_, ?_, ?_, ?_⟩
    · intro h
      have hbr := findBracket_all_absent kfs t (fun kf => kf.fill.isSome)
        (fun kf hk => by simp [h kf hk])
      constructor <;>
        simp [interpolateKeyframes, hne, hb, ha, _interpColor, hbr]
    · intro h
      have hbr := findBracket_all_absent kfs t (fun kf => kf.stroke.isSome)
        (fun kf hk => by simp [h kf hk])
      constructor <;>
        simp [interpolateKeyframes, hne, hb, ha, _interpColor, hbr]
    · intro h
      have hbr := findBracket_all_absent kfs t (fun kf => kf.strokeWidth.isSome)
        (fun kf hk => by simp [h kf hk])
      simp [interpolateKeyframes, hne, hb, ha, _interpOptNum, hbr]
    · intro h
      have hbr := findBracket_all_absent kfs t (fun kf => kf.strokeAlign.isSome)
        (fun kf hk => by simp [h kf hk])
      simp [interpolateKeyframes, hne, hb, ha, _interpSnap, hbr]
    · intro h
      have hbr := findBracket_all_absent kfs t (fun kf => kf.blurRadius.isSome)
        (fun kf hk => by simp [h kf hk])
      simp [interpolateKeyframes, hne, hb, ha, _interpOptNum, hbr]
    · intro h
      have hbr := findBracket_all_absent kfs t (fun kf => kf.backdropBlur.isSome)
        (fun kf hk => by simp [h kf hk])
      simp [interpolateKeyframes, hne, hb, ha, _interpOptNum, hbr]
    · intro h
      have hbr := findBracket_all_absent kfs t (fun kf => kf.width.isSome)
        (fun kf hk => by simp [h kf hk])
      simp [interpolateKeyframes, hne, hb, ha, _interpOptNum, hbr]
    · intro h
      have hbr := findBracket_all_absent kfs t (fun kf => kf.height.isSome)
        (fun kf hk => by simp [h kf hk])
      simp [interpolateKeyframes, hne, hb, ha, _interpOptNum, hbr]
    · intro h
      have hbr := findBracket_all_absent kfs t (fun kf => kf.pathD.isSome)
        (fun kf hk => by simp [h kf hk])
      simp [interpolateKeyframes, hne, hb, ha, _interpPath, hbr]
    · intro h
      have hbr := findBracket_all_absent kfs t (fun kf => kf.position.isSome)
        (fun kf hk => by simp [h kf hk])
      simp [interpolateKeyframes, hne, hb, ha, _interpPoint, hbr]
    · by_cases hfil : kfs.filter (fun kf => kf.position.isSome) = []
      · have hbr : _findBracket kfs t (fun kf => kf.position.isSome) = (none, none) := by
          rw [← findBracket_filter kfs t, hfil]
          rfl
        simp [interpolateKeyframes, hne, hb, ha, hfil, _interpPoint, hbr]
      · have hnef : (kfs.filter (fun kf => kf.position.isSome)).isEmpty = false := by
          cases hc : kfs.filter (fun kf => kf.position.isSome) with
          | nil => exact absurd hc hfil
          | cons k l => rfl
        have hbr := findBracket_filter kfs t (fun kf => kf.position.isSome)
        simp [interpolateKeyframes, hne, hnef, hb, ha, _interpPoint, hbr]

/-- Witness for C1: a keyframe list whose only keyframe defines just `fill`
leaves every other property absent / at its default. -/
theorem c1_witness :
    (interpolateKeyframes qHostMath [] qNow36 0 [c1Kf] 50 {}).strokeWidth = none ∧
    (interpolateKeyframes qHostMath [] qNow36 0 [c1Kf] 50 {}).pathD = none ∧
    (interpolateKeyframes qHostMath [] qNow36 0 [c1Kf] 50 {}).position = { x := 0, y := 0 } := by
  have h := c1_property_independence qHostMath [] qNow36 0 [c1Kf] 50 {} rfl rfl
  exact ⟨h.2.2.1 (by simp [c1Kf]), h.2.2.2.2.2.2.2.2.1 (by simp [c1Kf]),
    h.2.2.2.2.2.2.2.2.2.1 (by simp [c1Kf])⟩

theorem findBracketGo_skip_then_next (t : ℚ) (has : Keyframe → Bool)
    (B C : List Keyframe) (n : Keyframe) (prev : Option Keyframe)
    (hB : ∀ kf ∈ B, has kf = false) (hn : has n = true) (hnt : t < n.«at») :
    _findBracketGo t has (B ++ n :: C) prev = (prev, some n) := by
  induction B generalizing prev with
  | nil =>
    have hle : ¬n.«at» ≤ t := not_le.2 hnt
    simp [_findBracketGo, hn, hle]
  | cons b B ih =>
    have hb : has b = false := hB b (by simp)
    simp only [List.cons_append, _findBracketGo, hb]
    simp only [Bool.false_eq_true, not_false_iff, if_true]
    exact ih prev (fun kf hk => hB kf (by simp [hk]))

/-- The bracket scan on `A ++ p :: B ++ n :: C` returns `(p, n)` when: all
property-defining keyframes of `A` are at-or-before the query time, `p`
defines the property at-or-before the query time, nothing in `B` defines
the property, and `n` defines it strictly after the query time. -/
theorem findBracket_split (t : ℚ) (has : Keyframe → Bool)
    (A B C : List Keyframe) (p n : Keyframe)
    (hA : ∀ kf ∈ A, has kf = true → kf.«at» ≤ t)
    (hp : has p = true) (hpt : p.«at» ≤ t)
    (hB : ∀ kf ∈ B, has kf = false)
    (hn : has n = true) (hnt : t < n.«at») :
    _findBracket (A ++ p :: B ++ n :: C) t has = (some p, some n) := by
  unfold _findBracket
  suffices hgen : ∀ prev, _findBracketGo t has (A ++ p :: B ++ n :: C) prev = (some p, some n)
    from hgen none
  induction A with
  | nil =>
    intro prev
    simp only [List.nil_append, _findBracketGo, hp, hpt]
    simp only [Bool.true_eq_false, not_true_eq_false, if_false, if_true]
    exact findBracketGo_skip_then_next t has B C n (some p) hB hn hnt
  | cons a A ih =>
    intro prev
    by_cases hak : has a
    · have hat : a.«at» ≤ t := hA a (by simp) (by simpa using hak)
      simp only [List.cons_append, _findBracketGo, hak, hat]
      simp only [not_true_eq_false, if_false, if_true]
      exact ih (fun kf hk hh => hA kf (by simp [hk]) hh) (some a)
    · have hak' : has a = false := by simpa using hak
      simp only [List.cons_append, _findBracketGo, hak']
      simp only [Bool.false_eq_true, not_false_iff, if_true]
      exact ih (fun kf hk hh => hA kf (by simp [hk]) hh) prev

/-- C2: for every time-sorted keyframe list and numeric property accessor
with a bracketing `prev` keyframe (last at-or-before the query time that
defines the property) and `next` keyframe (first strictly after that
defines it), the numeric interpolation result is
`lerp prev.value next.value (easing next.curve ((t − prev.at) / (next.at − prev.at)))`;
specialised to the opacity channel of `interpolateKeyframes` (with no
interpolation hooks installed). -/
theorem c2_bracketed_numeric_lerp (M : HostMath) (ps : List MotionSvgPlugin)
    (now36 : ℕ → String) (ctr : ℕ) (A B C : List Keyframe) (p n : Keyframe)
    (t : ℚ) (opts : InterpolateOptions) (get : Keyframe → Option ℚ)
    (dflt pv nv : ℚ)
    (hb : pluginsHasBefore ps = false) (ha : pluginsHasAfter ps = false)
    (_hsorted : List.Pairwise (fun k1 k2 => k1.«at» ≤ k2.«at») (A ++ p :: B ++ n :: C))
    (hA : ∀ kf ∈ A, (get kf).isSome → kf.«at» ≤ t)
    (hpv : get p = some pv) (hpt : p.«at» ≤ t)
    (hB : ∀ kf ∈ B, get kf = none)
    (hnv : get n = some nv) (hnt : t < n.«at») :
    _interpNum M (A ++ p :: B ++ n :: C) t get dflt =
      lerp pv nv (getEasingFunction M n.curve ((t - p.«at») / (n.«at» - p.«at»))) ∧
    (get = (fun kf => kf.opacity) →
      (interpolateKeyframes M ps now36 ctr (A ++ p :: B ++ n :: C) t opts).opacity =
        lerp pv nv (getEasingFunction M n.curve ((t - p.«at») / (n.«at» - p.«at»)))) := by
  have hbr := findBracket_split t (fun kf => (get kf).isSome) A B C p n
    (fun kf hk hh => hA kf hk (by simpa using hh))
    (by simp [hpv]) hpt
    (fun kf hk => by simp [hB kf hk])
    (by simp [hnv]) hnt
  have hdur : n.«at» - p.«at» > 0 := by linarith
  have hmain : ∀ d : ℚ, _interpNum M (A ++ p :: B ++ n :: C) t get d =
      lerp pv nv (getEasingFunction M n.curve ((t - p.«at») / (n.«at» - p.«at»))) := by
    intro d
    simp only [_interpNum]
    rw [hbr]
    simp only [hpv, hnv, Option.getD_some, _easedT]
    rw [if_pos hdur]
  refine ⟨hmain dflt, fun hget => ?_⟩
  have hne : (A ++ p :: B ++ n :: C).isEmpty = false := by
    cases A with
    | nil => rfl
    | cons a A => rfl
  subst hget
  simp only [interpolateKeyframes, hne, hb, ha, Bool.false_eq_true, if_false]
  exact hmain 1

/-- Witness for C2: for the keyframes
`[{at: 0, opacity: 1}, {at: 1000, opacity: 0, curve: 'linear'}]`, the
opacity at query time 500 is exactly 1/2. -/
theorem c2_witness :
    (interpolateKeyframes qHostMath [] qNow36 0 [c2KfA, c2KfB] 500 {}).opacity = 1/2 := by
  have h := c2_bracketed_numeric_lerp qHostMath [] qNow36 0 [] [] [] c2KfA c2KfB
    500 {} (fun kf => kf.opacity) 1 1 0 rfl rfl
    (by simp [c2KfA, c2KfB]) (by simp) rfl (by norm_num [c2KfA]) (by simp) rfl
    (by norm_num [c2KfB])
  have h2 := h.2 rfl
  rw [show ([c2KfA, c2KfB] : List Keyframe) = [] ++ c2KfA :: [] ++ c2KfB :: [] from rfl]
  rw [h2]
  norm_num [lerp, getEasingFunction, easingFunctions, c2KfA, c2KfB]

theorem optAny_jsNumLt0_iff (o : Option JsNum) :
    o.any JsNum.ltZero = true ↔ ∃ q : ℚ, o = some (.fin q) ∧ q < 0 := by
  cases o with
  | none => simp
  | some j =>
    cases j with
    | fin q => simp [JsNum.ltZero]
    | inf => simp [JsNum.ltZero]

theorem optAny_neg_iff (o : Option ℚ) :
    (o.any fun v => decide (v < 0)) = true ↔ ∃ v, o = some v ∧ v < 0 := by
  cases o with
  | none => simp
  | some v => simp

theorem optAny_range_iff (o : Option ℚ) :
    (o.any fun v => decide (v < 0) || decide (v > 1)) = true ↔
      ∃ v, o = some v ∧ (v < 0 ∨ 1 < v) := by
  cases o with
  | none => simp
  | some v => simp

/-- C7: trigger binding fails exactly when the config has a negative finite
loop `iterations`, a negative loop `delay`, a scroll `start` or `end`
outside [0,1], an appear `threshold` outside [0,1], or an unrecognized type
tag (no silent clamping); on every valid config it succeeds and returns the
binding carrying the timeline's id and the config. -/
theorem c7_trigger_validation (tl : Timeline) (cfg : TriggerConfig) :
    ((trigger tl cfg).isOk = false ↔
      (cfg.type = "loop" ∧
        ((∃ q : ℚ, cfg.iterations = some (.fin q) ∧ q < 0) ∨
         (∃ d, cfg.delay = some d ∧ d < 0))) ∨
      (cfg.type = "scroll" ∧
        ((∃ v, cfg.start = some v ∧ (v < 0 ∨ 1 < v)) ∨
         (∃ v, cfg.«end» = some v ∧ (v < 0 ∨ 1 < v)))) ∨
      (cfg.type = "appear" ∧ (∃ v, cfg.threshold = some v ∧ (v < 0 ∨ 1 < v))) ∨
      cfg.type ∉ ["hover", "click", "loop", "scroll", "appear", "manual"]) ∧
    ((trigger tl cfg).isOk = true →
      trigger tl cfg = .ok { timelineId := tl.id, config := cfg }) := by
  by_cases h1 : cfg.type = "hover"
  · constructor
    · simp [trigger, validateTrigger, h1, Except.isOk, Except.toBool]
    · intro _
      simp [trigger, validateTrigger, h1]
  · by_cases h2 : cfg.type = "click"
    · constructor
      · simp [trigger, validateTrigger, h1, h2, Except.isOk, Except.toBool]
      · intro _
        simp [trigger, validateTrigger, h1, h2]
    · by_cases h3 : cfg.type = "loop"
      · constructor
        · rw [← optAny_jsNumLt0_iff, ← optAny_neg_iff]
          by_cases hi : cfg.iterations.any JsNum.ltZero
          · simp [trigger, validateTrigger, h1, h2, h3, hi, Except.isOk, Except.toBool]
          · by_cases hd : cfg.delay.any fun v => decide (v < 0)
            · simp [trigger, validateTrigger, h1, h2, h3, hi, hd, Except.isOk, Except.toBool]
            · simp [trigger, validateTrigger, h1, h2, h3, hi, hd, Except.isOk, Except.toBool]
        · intro hok
          by_cases hi : cfg.iterations.any JsNum.ltZero
          · simp [trigger, validateTrigger, h1, h2, h3, hi, Except.isOk, Except.toBool] at hok
          · by_cases hd : cfg.delay.any fun v => decide (v < 0)
            · simp [trigger, validateTrigger, h1, h2, h3, hi, hd, Except.isOk, Except.toBool] at hok
            · simp [trigger, validateTrigger, h1, h2, h3, hi, hd]
      · by_cases h4 : cfg.type = "scroll"
        · constructor
          · rw [← optAny_range_iff, ← optAny_range_iff]
            by_cases hs : cfg.start.any fun v => decide (v < 0) || decide (v > 1)
            · simp [trigger, validateTrigger, h1, h2, h3, h4, hs, Except.isOk, Except.toBool]
            · by_cases he : cfg.«end».any fun v => decide (v < 0) || decide (v > 1)
              · simp [trigger, validateTrigger, h1, h2, h3, h4, hs, he, Except.isOk, Except.toBool]
              · simp [trigger, validateTrigger, h1, h2, h3, h4, hs, he, Except.isOk, Except.toBool]
          · intro hok
            by_cases hs : cfg.start.any fun v => decide (v < 0) || decide (v > 1)
            · simp [trigger, validateTrigger, h1, h2, h3, h4, hs, Except.isOk, Except.toBool] at hok
            · by_cases he : cfg.«end».any fun v => decide (v < 0) || decide (v > 1)
              · simp [trigger, validateTrigger, h1, h2, h3, h4, hs, he, Except.isOk, Except.toBool] at hok
              · simp [trigger, validateTrigger, h1, h2, h3, h4, hs, he]
        · by_cases h5 : cfg.type = "appear"
          · constructor
            · rw [← optAny_range_iff]
              by_cases ht : cfg.threshold.any fun v => decide (v < 0) || decide (v > 1)
              · simp only [trigger, validateTrigger, h1, h2, h3, h4, h5, ht,
                  Except.isOk, Except.toBool, if_true, if_false, ite_true, ite_false,
                  if_neg, reduceIte]
                simp
                exact (optAny_range_iff cfg.threshold).1 ht
              · simp only [trigger, validateTrigger, h1, h2, h3, h4, h5,
                  Except.isOk, Except.toBool]
                simp [ht]
                intro x hx
                constructor
                · by_contra hneg
                  exact ht ((optAny_range_iff cfg.threshold).2
                    ⟨x, hx, Or.inl (lt_of_not_le hneg)⟩)
                · by_contra hneg
                  exact ht ((optAny_range_iff cfg.threshold).2
                    ⟨x, hx, Or.inr (lt_of_not_le hneg)⟩)
            · intro hok
              by_cases ht : cfg.threshold.any fun v => decide (v < 0) || decide (v > 1)
              · simp [trigger, validateTrigger, h1, h2, h3, h4, h5, ht, Except.isOk, Except.toBool] at hok
              · simp [trigger, validateTrigger, h1, h2, h3, h4, h5, ht]
          · by_cases h6 : cfg.type = "manual"
            · constructor
              · simp [trigger, validateTrigger, h1, h2, h3, h4, h5, h6, Except.isOk, Except.toBool]
              · intro _
                simp [trigger, validateTrigger, h1, h2, h3, h4, h5, h6]
            · constructor
              · simp [trigger, validateTrigger, h1, h2, h3, h4, h5, h6, Except.isOk, Except.toBool]
              · intro hok
                simp [trigger, validateTrigger, h1, h2, h3, h4, h5, h6, Except.isOk, Except.toBool] at hok

/-- Witness for C7: `{type:'loop', iterations:-1}` and
`{type:'scroll', start:1.5}` both fail; a valid loop config binds to the
timeline's id with the config carried unchanged. -/
theorem c7_witness :
    (trigger exTimeline { type := "loop", iterations := some (.fin (-1)) }).isOk = false ∧
    (trigger exTimeline { type := "scroll", start := some (3/2) }).isOk = false ∧
    trigger exTimeline { type := "loop", iterations := some (.fin 3) } =
      .ok { timelineId := exTimeline.id
            config := { type := "loop", iterations := some (.fin 3) } } := by
  refine ⟨?_, ?_, ?_⟩
  · exact (c7_trigger_validation exTimeline
      { type := "loop", iterations := some (.fin (-1)) }).1.mpr
      (Or.inl ⟨rfl, Or.inl ⟨-1, rfl, by norm_num⟩⟩)
  · exact (c7_trigger_validation exTimeline
      { type := "scroll", start := some (3/2) }).1.mpr
      (Or.inr (Or.inl ⟨rfl, Or.inl ⟨3/2, rfl, by norm_num⟩⟩))
  · exact (c7_trigger_validation exTimeline
      { type := "loop", iterations := some (.fin 3) }).2 (by decide)

theorem sortKeyframes_sorted (kfs : List Keyframe) :
    (sortKeyframes kfs).Pairwise (fun k1 k2 => k1.«at» ≤ k2.«at») := by
  haveI h1 : IsTotal Keyframe (fun k1 k2 => k1.«at» ≤ k2.«at») :=
    ⟨fun a b => le_total _ _⟩
  haveI h2 : IsTrans Keyframe (fun k1 k2 => k1.«at» ≤ k2.«at») :=
    ⟨fun a b c hab hbc => le_trans hab hbc⟩
  exact List.sorted_insertionSort _ _

theorem sortKeyframes_ne_nil (kfs : List Keyframe) (h : kfs ≠ []) :
    sortKeyframes kfs ≠ [] := by
  intro hc
  have hp : (sortKeyframes kfs).Perm kfs := List.perm_insertionSort _ _
  rw [hc] at hp
  exact h (List.Perm.nil_eq hp).symm

/-- Counterexample for C6: the timeline constructor drops an explicitly set
optional `width`, `height` or `pathD` from the first keyframe (the
back-filled record is rebuilt from a field list that omits them), instead
of preserving every explicitly set value. -/
theorem c6_counterexample :
    (c6CfgDropped.keyframes.map (fun kf => kf.width) = [some 10] ∧
     c6CfgDropped.keyframes.map (fun kf => kf.height) = [some 20] ∧
     c6CfgDropped.keyframes.map (fun kf => kf.pathD) = [some "M0,0"]) ∧
    ((tlKeyframesOf (timeline 0 exActor c6CfgDropped)).map (fun kf => kf.width) = [none] ∧
     (tlKeyframesOf (timeline 0 exActor c6CfgDropped)).map (fun kf => kf.height) = [none] ∧
     (tlKeyframesOf (timeline 0 exActor c6CfgDropped)).map (fun kf => kf.pathD) = [none]) := by
  decide

/-- C6 (amended): the timeline constructor fails synchronously on zero
keyframes; otherwise it sorts the keyframes ascending by `at`, back-fills
the first keyframe's position/scale/rotation/opacity from the actor's
defaults while preserving explicitly set values of those four fields and
carrying over the first keyframe's `fill`, `stroke`, `strokeWidth`,
`strokeAlign`, `blurRadius`, `backdropBlur` and `curve` — but dropping any
explicitly set `width`, `height` or `pathD` on that first keyframe — and
sets the duration to the last keyframe's `at`. -/
theorem c6_timeline_construction (counter : ℕ) (actor : Actor)
    (cfg : TimelineConfig) :
    (cfg.keyframes = [] → (timeline counter actor cfg).isOk = false) ∧
    (cfg.keyframes ≠ [] →
      (tlKeyframesOf (timeline counter actor cfg)).Pairwise
        (fun k1 k2 => k1.«at» ≤ k2.«at») ∧
      tlDurationOf (timeline counter actor cfg) =
        ((tlKeyframesOf (timeline counter actor cfg)).getLastD kfDefault).«at» ∧
      ((tlKeyframesOf (timeline counter actor cfg)).headD kfDefault).«at» =
        ((sortKeyframes cfg.keyframes).headD kfDefault).«at» ∧
      ((tlKeyframesOf (timeline counter actor cfg)).headD kfDefault).position =
        some ((((sortKeyframes cfg.keyframes).headD kfDefault).position).getD actor.origin) ∧
      ((tlKeyframesOf (timeline counter actor cfg)).headD kfDefault).scale =
        some ((((sortKeyframes cfg.keyframes).headD kfDefault).scale).getD (.num 1)) ∧
      ((tlKeyframesOf (timeline counter actor cfg)).headD kfDefault).rotation =
        some ((((sortKeyframes cfg.keyframes).headD kfDefault).rotation).getD 0) ∧
      ((tlKeyframesOf (timeline counter actor cfg)).headD kfDefault).opacity =
        some ((((sortKeyframes cfg.keyframes).headD kfDefault).opacity).getD 1) ∧
      ((tlKeyframesOf (timeline counter actor cfg)).headD kfDefault).fill =
        ((sortKeyframes cfg.keyframes).headD kfDefault).fill ∧
      ((tlKeyframesOf (timeline counter actor cfg)).headD kfDefault).stroke =
        ((sortKeyframes cfg.keyframes).headD kfDefault).stroke ∧
      ((tlKeyframesOf (timeline counter actor cfg)).headD kfDefault).strokeWidth =
        ((sortKeyframes cfg.keyframes).headD kfDefault).strokeWidth ∧
      ((tlKeyframesOf (timeline counter actor cfg)).headD kfDefault).strokeAlign =
        ((sortKeyframes cfg.keyframes).headD kfDefault).strokeAlign ∧
      ((tlKeyframesOf (timeline counter actor cfg)).headD kfDefault).blurRadius =
        ((sortKeyframes cfg.keyframes).headD kfDefault).blurRadius ∧
      ((tlKeyframesOf (timeline counter actor cfg)).headD kfDefault).backdropBlur =
        ((sortKeyframes cfg.keyframes).headD kfDefault).backdropBlur ∧
      ((tlKeyframesOf (timeline counter actor cfg)).headD kfDefault).curve =
        ((sortKeyframes cfg.keyframes).headD kfDefault).curve ∧
      ((tlKeyframesOf (timeline counter actor cfg)).headD kfDefault).width = none ∧
      ((tlKeyframesOf (timeline counter actor cfg)).headD kfDefault).height = none ∧
      ((tlKeyframesOf (timeline counter actor cfg)).headD kfDefault).pathD = none ∧
      (tlKeyframesOf (timeline counter actor cfg)).tail =
        (sortKeyframes cfg.keyframes).tail) := by
  constructor
  · intro h
    simp [timeline, h, Except.isOk, Except.toBool]
  · intro h
    have hne : cfg.keyframes.isEmpty = false := by
      cases hk : cfg.keyframes with
      | nil => exact absurd hk h
      | cons a l => rfl
    obtain ⟨first, rest, hsr⟩ : ∃ f r, sortKeyframes cfg.keyframes = f :: r := by
      cases hs : sortKeyframes cfg.keyframes with
      | nil => exact absurd hs (sortKeyframes_ne_nil cfg.keyframes h)
      | cons f r => exact ⟨f, r, rfl⟩
    have hsorted := sortKeyframes_sorted cfg.keyframes
    rw [hsr] at hsorted
    rw [List.pairwise_cons] at hsorted
    simp only [timeline, hne, Bool.false_eq_true, if_false, hsr, tlKeyframesOf,
      tlDurationOf, List.headD_cons, List.tail_cons, eq_self_iff_true, and_true,
      true_and]
    refine ⟨?_, ?_⟩
    · rw [List.pairwise_cons]
      exact ⟨fun k hk => hsorted.1 k hk, hsorted.2⟩
    · rw [List.getLastD_cons, List.getLastD_cons]

/-- Witness for C6: construction fails on an empty keyframe list; on a
two-keyframe config given in reverse time order, the first (earliest)
keyframe gets the actor's origin as position while its explicit rotation is
preserved, and the duration is the last keyframe's time. -/
theorem c6_witness :
    (timeline 0 exActor { keyframes := [] }).isOk = false ∧
    ((tlKeyframesOf (timeline 0 exActor c6CfgTwo)).headD kfDefault).position =
      some { x := 50, y := 50 } ∧
    ((tlKeyframesOf (timeline 0 exActor c6CfgTwo)).headD kfDefault).rotation =
      some 45 ∧
    tlDurationOf (timeline 0 exActor c6CfgTwo) = 1000 := by
  have h0 := (c6_timeline_construction 0 exActor { keyframes := [] }).1 rfl
  have h := (c6_timeline_construction 0 exActor c6CfgTwo).2 (by decide)
  refine ⟨h0, ?_, ?_, ?_⟩
  · exact h.2.2.2.1.trans (by decide)
  · exact h.2.2.2.2.2.1.trans (by decide)
  · exact h.2.1.trans (by decide)

theorem getLast?_drop_of_lt {α : Type} (l : List α) (k : ℕ) (h : k < l.length) :
    (l.drop k).getLast? = l.getLast? := by
  induction l generalizing k with
  | nil => simp at h
  | cons a l ih =>
    cases k with
    | zero => rfl
    | succ k =>
      simp only [List.drop_succ_cons]
      have hk : k < l.length := by
        simpa using Nat.lt_of_succ_lt_succ (by simpa using h)
      rw [ih k hk]
      cases l with
      | nil => simp at hk
      | cons b l => simp

theorem findLongestAux_bound (M : HostMath) (segs : List CubicSegment) :
    ∀ (px py : ℚ) (i best : ℕ) (bestLen : ℚ),
      findLongestAux M segs px py i best bestLen < i + segs.length ∨
      findLongestAux M segs px py i best bestLen = best := by
  induction segs with
  | nil =>
    intro px py i best bestLen
    exact Or.inr rfl
  | cons s rest ih =>
    intro px py i best bestLen
    simp only [findLongestAux, List.length_cons]
    by_cases hl : segmentLength M px py s > bestLen
    · rw [if_pos hl]
      rcases ih s.x s.y (i + 1) i (segmentLength M px py s) with h | h
      · left
        omega
      · left
        omega
    · rw [if_neg hl]
      rcases ih s.x s.y (i + 1) best bestLen with h | h
      · left
        omega
      · right
        exact h

theorem findLongestIdx_lt (M : HostMath) (segs : List CubicSegment)
    (sx sy : ℚ) (h : segs ≠ []) : findLongestIdx M segs sx sy < segs.length := by
  have hlen : 0 < segs.length := List.length_pos.2 h
  rcases findLongestAux_bound M segs sx sy 0 0 0 with hb | hb
  · simpa using hb
  · rw [findLongestIdx, hb]
    exact hlen

theorem subdivideAtLongest_length (M : HostMath) (segs : List CubicSegment)
    (sx sy : ℚ) (h : segs ≠ []) :
    (subdivideAtLongest M segs sx sy).length = segs.length + 1 := by
  have hidx := findLongestIdx_lt M segs sx sy h
  have hne : segs.isEmpty = false := by
    cases segs with
    | nil => exact absurd rfl h
    | cons a l => rfl
  simp only [subdivideAtLongest, hne, Bool.false_eq_true, if_false,
    List.length_append, List.length_take, List.length_drop, List.length_cons,
    List.length_nil]
  omega

theorem subdivideAtLongest_ne_nil (M : HostMath) (segs : List CubicSegment)
    (sx sy : ℚ) (h : segs ≠ []) : subdivideAtLongest M segs sx sy ≠ [] := by
  intro hc
  have := subdivideAtLongest_length M segs sx sy h
  rw [hc] at this
  simp at this

theorem subdivideAtLongest_lastPt (M : HostMath) (segs : List CubicSegment)
    (sx sy : ℚ) (h : segs ≠ []) (d : ℚ × ℚ) :
    segsLastPt (subdivideAtLongest M segs sx sy) d = segsLastPt segs d := by
  have hidx := findLongestIdx_lt M segs sx sy h
  have hne : segs.isEmpty = false := by
    cases segs with
    | nil => exact absurd rfl h
    | cons a l => rfl
  simp only [subdivideAtLongest, hne, Bool.false_eq_true, if_false]
  by_cases hlast : findLongestIdx M segs sx sy + 1 < segs.length
  · have hdropne : segs.drop (findLongestIdx M segs sx sy + 1) ≠ [] := by
      rw [← List.length_pos, List.length_drop]
      omega
    rw [segsLastPt, segsLastPt, List.getLast?_append_of_ne_nil _ hdropne,
      getLast?_drop_of_lt segs _ hlast]
  · have heq : findLongestIdx M segs sx sy + 1 = segs.length := by omega
    have hdropnil : segs.drop (findLongestIdx M segs sx sy + 1) = [] := by
      rw [List.drop_eq_nil_iff]
      omega
    rw [hdropnil]
    have hget : segs.getLast? =
        some (segs.getD (findLongestIdx M segs sx sy)
          { cx1 := 0, cy1 := 0, cx2 := 0, cy2 := 0, x := 0, y := 0 }) := by
      rw [List.getLast?_eq_getElem?, List.getD_eq_getElem?_getD]
      have : segs.length - 1 = findLongestIdx M segs sx sy := by omega
      rw [this]
      cases hg : segs[findLongestIdx M segs sx sy]? with
      | none =>
        rw [List.getElem?_eq_none_iff] at hg
        omega
      | some v => rfl
    rw [segsLastPt, segsLastPt, hget]
    rw [List.getLast?_append]
    simp [splitCubicAt]

theorem growTo_spec (M : HostMath) (sx sy : ℚ) :
    ∀ (fuel : ℕ) (segs : List CubicSegment) (target : ℕ) (d : ℚ × ℚ),
      segs ≠ [] → target ≤ segs.length + fuel →
      (growTo M sx sy fuel segs target).length = max segs.length target ∧
      segsLastPt (growTo M sx sy fuel segs target) d = segsLastPt segs d ∧
      growTo M sx sy fuel segs target ≠ [] := by
  intro fuel
  induction fuel with
  | zero =>
    intro segs target d hne hfit
    simp only [growTo]
    refine ⟨?_, trivial, hne⟩
    omega
  | succ fuel ih =>
    intro segs target d hne hfit
    simp only [growTo]
    by_cases hlt : segs.length < target
    · rw [if_pos hlt]
      have hne' := subdivideAtLongest_ne_nil M segs sx sy hne
      have hlen := subdivideAtLongest_length M segs sx sy hne
      have hfit' : target ≤ (subdivideAtLongest M segs sx sy).length + fuel := by
        omega
      obtain ⟨h1, h2, h3⟩ := ih (subdivideAtLongest M segs sx sy) target d hne' hfit'
      refine ⟨?_, ?_, h3⟩
      · rw [h1, hlen]
        omega
      · rw [h2, subdivideAtLongest_lastPt M segs sx sy hne d]
    · rw [if_neg hlt]
      refine ⟨?_, rfl, hne⟩
      omega

/-- Counterexample for C4: on a pair where one normalized path has zero
segments, `balanceCommands` cannot equalize the counts — subdividing an
empty segment list returns it unchanged, so the source's
`while (segsA.length < segsB.length)` loop makes no progress (it never
terminates; the fuelled model returns the still-unequal lists). -/
theorem c4_counterexample :
    subdivideAtLongest qHostMath [] 0 0 = [] ∧
    (balanceCommands qHostMath c4EmptySeg c4FourSeg).1.segments.length = 0 ∧
    (balanceCommands qHostMath c4EmptySeg c4FourSeg).2.segments.length = 4 := by
  decide

/-- C4 (amended): for every pair of normalized paths with at least one
segment each, `balanceCommands` returns two paths whose segment counts both
equal the larger of the two input counts (never reducing a count), with
each path's start point and final end point unchanged. -/
theorem c4_balance_equalizes (M : HostMath) (a b : NormalizedPath)
    (ha : a.segments ≠ []) (hb : b.segments ≠ []) :
    ((balanceCommands M a b).1.segments.length =
        max a.segments.length b.segments.length ∧
     (balanceCommands M a b).2.segments.length =
        max a.segments.length b.segments.length) ∧
    ((balanceCommands M a b).1.startX = a.startX ∧
     (balanceCommands M a b).1.startY = a.startY ∧
     (balanceCommands M a b).2.startX = b.startX ∧
     (balanceCommands M a b).2.startY = b.startY) ∧
    (segsLastPt (balanceCommands M a b).1.segments (a.startX, a.startY) =
        segsLastPt a.segments (a.startX, a.startY) ∧
     segsLastPt (balanceCommands M a b).2.segments (b.startX, b.startY) =
        segsLastPt b.segments (b.startX, b.startY)) := by
  obtain ⟨hA1, hA2, hA3⟩ := growTo_spec M a.startX a.startY b.segments.length
    a.segments b.segments.length (a.startX, a.startY) ha (by omega)
  obtain ⟨hB1, hB2, _⟩ := growTo_spec M b.startX b.startY
    (growTo M a.startX a.startY b.segments.length a.segments b.segments.length).length
    b.segments
    (growTo M a.startX a.startY b.segments.length a.segments b.segments.length).length
    (b.startX, b.startY) hb (by omega)
  refine ⟨⟨?_, ?_⟩, ⟨rfl, rfl, rfl, rfl⟩, ?_, ?_⟩
  · simpa [balanceCommands] using hA1
  · simp only [balanceCommands]
    rw [hB1, hA1]
    omega
  · simpa [balanceCommands] using hA2
  · simpa [balanceCommands] using hB2

/-- Witness for C4 (amended): inputs of 1 and 4 segments yield two outputs
of 4 segments each, with unchanged start and end points. -/
theorem c4_witness :
    ((balanceCommands qHostMath c4OneSeg c4FourSeg).1.segments.length = 4 ∧
     (balanceCommands qHostMath c4OneSeg c4FourSeg).2.segments.length = 4) ∧
    ((balanceCommands qHostMath c4OneSeg c4FourSeg).1.startX = 0 ∧
     (balanceCommands qHostMath c4OneSeg c4FourSeg).2.startX = 5) ∧
    (segsLastPt (balanceCommands qHostMath c4OneSeg c4FourSeg).1.segments (0, 0) = (3, 3) ∧
     segsLastPt (balanceCommands qHostMath c4OneSeg c4FourSeg).2.segments (5, 5) = (17, 17)) := by
  have h := c4_balance_equalizes qHostMath c4OneSeg c4FourSeg (by decide) (by decide)
  refine ⟨⟨h.1.1.trans (by decide), h.1.2.trans (by decide)⟩,
    ⟨h.2.1.1.trans (by decide), h.2.1.2.2.1.trans (by decide)⟩,
    h.2.2.1.trans (by decide), h.2.2.2.trans (by decide)⟩

theorem c5Aux (c1 c2 L co si : ℚ) (hL : 0 < L) (htr : 0 < co * co + si * si) :
    0 < (c1 + L * co - (c1 - L * co)) ^ 2 + (c2 + L * si - (c2 - L * si)) ^ 2 := by
  nlinarith [mul_pos (mul_pos hL hL) htr]

/-- C5: blending two linear gradients whose direction vectors differ by a
180° rotation (same center and length, i.e. swapped endpoints) at t = 0.5
yields a linear gradient whose direction vector has strictly positive
(squared) length, because the linear↔linear branch of `lerpGradientDef`
interpolates center, half-length and angle in polar form rather than the
raw endpoint coordinates.  The host's `sqrt`, `cos` and `sin` enter the
computation; the two hypotheses about them (square roots of positives are
positive, cosine and sine never vanish simultaneously) hold for the real
functions and for their floating-point versions. -/
theorem c5_polar_blend_nondegenerate (M : HostMath) (now36 : ℕ → String)
    (la lb : LinearGradientDef) (ctr : ℕ)
    (hsqrt : ∀ x : ℚ, 0 < x → 0 < M.sqrt x)
    (htrig : ∀ θ : ℚ, 0 < M.cos θ * M.cos θ + M.sin θ * M.sin θ)
    (hx1 : lb.x1 = la.x2) (hy1 : lb.y1 = la.y2)
    (hx2 : lb.x2 = la.x1) (hy2 : lb.y2 = la.y1)
    (hnz : ¬(la.x2 - la.x1 = 0 ∧ la.y2 - la.y1 = 0)) :
    (lerpGradientDef M now36 (.linear la) (.linear lb) (1/2) ctr).1.isLinear = true ∧
    0 < linDirLenSq (lerpGradientDef M now36 (.linear la) (.linear lb) (1/2) ctr).1 := by
  have hs : 0 < (la.x2 - la.x1) * (la.x2 - la.x1) + (la.y2 - la.y1) * (la.y2 - la.y1) := by
    rcases not_and_or.1 hnz with hx | hy
    · have : 0 < (la.x2 - la.x1) * (la.x2 - la.x1) := mul_self_pos.2 hx
      nlinarith [mul_self_nonneg (la.y2 - la.y1)]
    · have : 0 < (la.y2 - la.y1) * (la.y2 - la.y1) := mul_self_pos.2 hy
      nlinarith [mul_self_nonneg (la.x2 - la.x1)]
  constructor
  · simp [lerpGradientDef, GradientDef.isLinear]
  · simp only [lerpGradientDef, linDirLenSq]
    have hbsq : (lb.x2 - lb.x1) * (lb.x2 - lb.x1) + (lb.y2 - lb.y1) * (lb.y2 - lb.y1) =
        (la.x2 - la.x1) * (la.x2 - la.x1) + (la.y2 - la.y1) * (la.y2 - la.y1) := by
      rw [hx1, hy1, hx2, hy2]
      ring
    have hsqA : 0 < M.sqrt ((la.x2 - la.x1) * (la.x2 - la.x1) +
        (la.y2 - la.y1) * (la.y2 - la.y1)) := hsqrt _ hs
    have hsqB : 0 < M.sqrt ((lb.x2 - lb.x1) * (lb.x2 - lb.x1) +
        (lb.y2 - lb.y1) * (lb.y2 - lb.y1)) := by
      rw [hbsq]
      exact hsqA
    have hL : 0 < lerp (M.sqrt ((la.x2 - la.x1) * (la.x2 - la.x1) +
        (la.y2 - la.y1) * (la.y2 - la.y1)) / 2)
        (M.sqrt ((lb.x2 - lb.x1) * (lb.x2 - lb.x1) +
        (lb.y2 - lb.y1) * (lb.y2 - lb.y1)) / 2) (1/2) := by
      simp only [lerp]
      nlinarith
    exact c5Aux _ _ _ _ _ hL (htrig _)

/-- Witness for C5: two concrete horizontal linear gradients rotated 180°
apart blend at t = 0.5 into a linear gradient with a non-degenerate
direction vector. -/
theorem c5_witness :
    (lerpGradientDef qHostMath qNow36 (.linear c5GradA) (.linear c5GradB)
      (1/2) 0).1.isLinear = true ∧
    0 < linDirLenSq (lerpGradientDef qHostMath qNow36 (.linear c5GradA)
      (.linear c5GradB) (1/2) 0).1 :=
  c5_polar_blend_nondegenerate qHostMath qNow36 c5GradA c5GradB 0
    (fun x hx => by simpa [qHostMath, jsAbs, not_lt.2 (le_of_lt hx)] using hx)
    (fun θ => by norm_num [qHostMath])
    rfl rfl rfl rfl (by norm_num [c5GradA])

theorem countType_append (a b : List PBEvent) (t : EventType) :
    countType (a ++ b) t = countType a t + countType b t := by
  simp [countType, List.filter_append]

theorem jsGeIterations_fin (k n : ℕ) :
    jsGeIterations k (.fin (n : ℚ)) = true ↔ n ≤ k := by
  simp [jsGeIterations, ge_iff_le, Nat.cast_le]

theorem c8Inv_tick (tl : Timeline) (L : LoopParams) (now : ℚ) (s : PBState)
    (evs : List PBEvent) (n : ℕ)
    (hiter : L.iterations = .fin (n : ℚ)) (hdelay : L.delay = 0)
    (h : c8Inv n s evs) :
    c8Inv n (pbTick tl L now s).1 (evs ++ (pbTick tl L now s).2) := by
  obtain ⟨hc, hr, hf, hnf⟩ := h
  simp only [pbTick]
  split
  · simpa [c8Inv] using ⟨hc, hr, hf, hnf⟩
  · rename_i hss
    have hsplay : s.state = .playing := by
      by_contra hcon
      exact hss hcon
    split
    · simpa [c8Inv] using ⟨hc, hr, hf, hnf⟩
    · rename_i lfv hlf
      have hnotfin : ¬s.state = .finished := by
        rw [hsplay]
        intro hcon
        cases hcon
      have hc0 : countType evs .complete = 0 := by
        rw [hc, if_neg hnotfin]
      have hr0 : countType evs .repeat = s.iterationCount := by
        rw [← hr, if_neg hnotfin, Nat.add_zero]
      have hlt : s.iterationCount < n := hnf hnotfin
      rw [hdelay]
      simp only [gt_iff_lt, lt_self_iff_false, if_false]
      split
      · -- upper bound hit
        rename_i hup
        split
        · -- budget exhausted → finished + complete
          rename_i hge
          rw [hiter, jsGeIterations_fin] at hge
          refine ⟨?_, ?_, ?_, ?_⟩
          · rw [countType_append, hc0]
            simp [countType, eventHasType]
          · rw [countType_append, hr0]
            simp [countType, eventHasType]
          · intro _
            simp only []
            omega
          · intro hcon
            simp at hcon
        · -- repeat at the upper bound
          rename_i hge
          rw [hiter, jsGeIterations_fin] at hge
          have hgt : s.iterationCount + 1 < n := by omega
          split
          · refine ⟨?_, ?_, ?_, ?_⟩
            · rw [countType_append, hc0]
              simp [countType, eventHasType, hsplay]
            · rw [countType_append, hr0]
              simp [countType, eventHasType, hsplay]
            · intro hcon
              rw [hsplay] at hcon
              cases hcon
            · intro _
              simpa using hgt
          · split
            · refine ⟨?_, ?_, ?_, ?_⟩
              · rw [countType_append, hc0]
                simp [countType, eventHasType, hsplay]
              · rw [countType_append, hr0]
                simp [countType, eventHasType, hsplay]
              · intro hcon
                rw [hsplay] at hcon
                cases hcon
              · intro _
                simpa using hgt
            · refine ⟨?_, ?_, ?_, ?_⟩
              · rw [countType_append, hc0]
                simp [countType, eventHasType, hsplay]
              · rw [countType_append, hr0]
                simp [countType, eventHasType, hsplay]
              · intro hcon
                rw [hsplay] at hcon
                cases hcon
              · intro _
                simpa using hgt
      · -- not at the upper bound
        rename_i hnup
        split
        · -- lower bound hit
          rename_i hlow
          split
          · rename_i hge
            rw [hiter, jsGeIterations_fin] at hge
            refine ⟨?_, ?_, ?_, ?_⟩
            · rw [countType_append, hc0]
              simp [countType, eventHasType]
            · rw [countType_append, hr0]
              simp [countType, eventHasType]
            · intro _
              simp only []
              omega
            · intro hcon
              simp at hcon
          · rename_i hge
            rw [hiter, jsGeIterations_fin] at hge
            have hgt : s.iterationCount + 1 < n := by omega
            split
            · refine ⟨?_, ?_, ?_, ?_⟩
              · rw [countType_append, hc0]
                simp [countType, eventHasType, hsplay]
              · rw [countType_append, hr0]
                simp [countType, eventHasType, hsplay]
              · intro hcon
                rw [hsplay] at hcon
                cases hcon
              · intro _
                simpa using hgt
            · refine ⟨?_, ?_, ?_, ?_⟩
              · rw [countType_append, hc0]
                simp [countType, eventHasType, hsplay]
              · rw [countType_append, hr0]
                simp [countType, eventHasType, hsplay]
              · intro hcon
                rw [hsplay] at hcon
                cases hcon
              · intro _
                simpa using hgt
        · -- plain frame
          refine ⟨?_, ?_, ?_, ?_⟩
          · rw [countType_append, hc0]
            simp [countType, eventHasType, hsplay]
          · rw [countType_append, hr0]
            simp [countType, eventHasType, hsplay]
          · intro hcon
            rw [hsplay] at hcon  -- hmm projection
            cases hcon
          · intro _
            simpa using hlt

theorem c8Inv_run (tl : Timeline) (L : LoopParams) (ticks : List ℚ)
    (s : PBState) (evs : List PBEvent) (n : ℕ)
    (hiter : L.iterations = .fin (n : ℚ)) (hdelay : L.delay = 0)
    (h : c8Inv n s evs) :
    c8Inv n (pbRunTicks tl L s ticks).1 (evs ++ (pbRunTicks tl L s ticks).2) := by
  induction ticks generalizing s evs with
  | nil => simpa [pbRunTicks] using h
  | cons now rest ih =>
    simp only [pbRunTicks]
    have h1 := c8Inv_tick tl L now s evs n hiter hdelay h
    have h2 := ih (pbTick tl L now s).1 (evs ++ (pbTick tl L now s).2) h1
    simpa [List.append_assoc] using h2

theorem c8InfInv_tick (tl : Timeline) (L : LoopParams) (now : ℚ) (s : PBState)
    (evs : List PBEvent) (hiter : L.iterations = .inf) (h : c8InfInv s evs) :
    c8InfInv (pbTick tl L now s).1 (evs ++ (pbTick tl L now s).2) := by
  obtain ⟨hc, hs⟩ := h
  simp only [pbTick]
  split
  · simpa [c8InfInv] using ⟨hc, hs⟩
  · rename_i hss
    have hsplay : s.state = .playing := by
      by_contra hcon
      exact hss hcon
    split
    · exact ⟨by simpa using hc, by simp [hsplay]⟩
    · rename_i lfv hlf
      rw [hiter]
      simp only [jsGeIterations, Bool.false_eq_true, if_false]
      split
      · -- upper bound: repeat path
        split
        · -- loop delay > 0: park in paused
          constructor
          · rw [countType_append, hc]
            simp [countType, eventHasType]
          · intro hcon
            simp at hcon
        · -- no delay: the direction adjustment keeps the state playing
          split
          · constructor
            · rw [countType_append, hc]
              simp [countType, eventHasType]
            · intro hcon
              rw [hsplay] at hcon
              cases hcon
          · split
            · constructor
              · rw [countType_append, hc]
                simp [countType, eventHasType]
              · intro hcon
                rw [hsplay] at hcon
                cases hcon
            · constructor
              · rw [countType_append, hc]
                simp [countType, eventHasType]
              · intro hcon
                rw [hsplay] at hcon
                cases hcon
      · split
        · -- lower bound: repeat path
          split
          · constructor
            · rw [countType_append, hc]
              simp [countType, eventHasType]
            · intro hcon
              rw [hsplay] at hcon
              cases hcon
          · constructor
            · rw [countType_append, hc]
              simp [countType, eventHasType]
            · intro hcon
              rw [hsplay] at hcon
              cases hcon
        · -- plain frame
          constructor
          · rw [countType_append, hc]
            simp [countType, eventHasType]
          · intro hcon
            rw [hsplay] at hcon
            cases hcon

theorem c8InfInv_run (tl : Timeline) (L : LoopParams) (ticks : List ℚ)
    (s : PBState) (evs : List PBEvent)
    (hiter : L.iterations = .inf) (h : c8InfInv s evs) :
    c8InfInv (pbRunTicks tl L s ticks).1 (evs ++ (pbRunTicks tl L s ticks).2) := by
  induction ticks generalizing s evs with
  | nil => simpa [pbRunTicks] using h
  | cons now rest ih =>
    simp only [pbRunTicks]
    have h1 := c8InfInv_tick tl L now s evs hiter h
    have h2 := ih (pbTick tl L now s).1 (evs ++ (pbTick tl L now s).2) h1
    simpa [List.append_assoc] using h2

theorem pbPlay_initial (tl : Timeline) (r : Option ℚ) :
    (pbPlay (pbInitial tl r)).1.state = .playing ∧
    (pbPlay (pbInitial tl r)).1.iterationCount = 0 := by
  simp [pbPlay, pbInitial]

/-- C8: over a tick trace of a freshly played controller whose loop trigger
has a finite integer iteration budget `n ≥ 1` (and no loop delay): at most
one `complete` event is ever emitted, and whenever the controller has
reached the `finished` state the trace contains exactly `n − 1` `repeat`
events and exactly one `complete` event (the `complete` fires at a time
bound when the budget is exhausted, by the tick's bound branches).  With an
`Infinity` budget no trace ever emits `complete`; and a non-loop (or
absent) trigger distils to a default budget of exactly 1 iteration. -/
theorem c8_loop_iteration_budget (tl : Timeline) (L : LoopParams)
    (initialRate : Option ℚ) (ticks : List ℚ) (n : ℕ) (hn : 1 ≤ n)
    (hdelay : L.delay = 0) :
    (L.iterations = .fin (n : ℚ) →
      countType (pbRunTicks tl L (pbPlay (pbInitial tl initialRate)).1 ticks).2
        .complete ≤ 1 ∧
      ((pbRunTicks tl L (pbPlay (pbInitial tl initialRate)).1 ticks).1.state = .finished →
        countType (pbRunTicks tl L (pbPlay (pbInitial tl initialRate)).1 ticks).2
          .repeat = n - 1 ∧
        countType (pbRunTicks tl L (pbPlay (pbInitial tl initialRate)).1 ticks).2
          .complete = 1)) ∧
    (L.iterations = .inf →
      countType (pbRunTicks tl L (pbPlay (pbInitial tl initialRate)).1 ticks).2
        .complete = 0) ∧
    (∀ tb : TriggerBinding, tb.config.type ≠ "loop" →
      (loopParamsOf (some tb)).iterations = .fin 1) ∧
    (loopParamsOf none).iterations = .fin 1 := by
  obtain ⟨hps, hpi⟩ := pbPlay_initial tl initialRate
  have hpnf : (pbPlay (pbInitial tl initialRate)).1.state ≠ .finished := by
    rw [hps]
    intro hcon
    cases hcon
  refine ⟨?_, ?_, ?_, ?_⟩
  · intro hiter
    have hinv0 : c8Inv n (pbPlay (pbInitial tl initialRate)).1 [] := by
      refine ⟨?_, ?_, ?_, ?_⟩
      · rw [if_neg hpnf]
        rfl
      · rw [if_neg hpnf, hpi]
        rfl
      · intro hcon
        exact absurd hcon hpnf
      · intro _
        rw [hpi]
        omega
    have hinv := c8Inv_run tl L ticks (pbPlay (pbInitial tl initialRate)).1 [] n
      hiter hdelay hinv0
    rw [List.nil_append] at hinv
    obtain ⟨hc, hr, hf, _⟩ := hinv
    constructor
    · rw [hc]
      split <;> omega
    · intro hfin
      have hcn := hf hfin
      rw [if_pos hfin] at hc hr
      exact ⟨by omega, hc⟩
  · intro hiter
    have hinv0 : c8InfInv (pbPlay (pbInitial tl initialRate)).1 [] := ⟨rfl, hpnf⟩
    have hinv := c8InfInv_run tl L ticks (pbPlay (pbInitial tl initialRate)).1 []
      hiter hinv0
    rw [List.nil_append] at hinv
    exact hinv.1
  · intro tb htb
    simp [loopParamsOf, htb]
  · rfl

unseal Rat.add Rat.sub Rat.mul in
/-- Witness for C8: a loop trigger with `iterations: 3` (direction
`normal`, no delay) driven to completion emits exactly 2 `repeat` events
and exactly 1 `complete` event. -/
theorem c8_witness :
    countType (pbRunTicks exTimeline (loopParamsOf (some c8Trig))
      (pbPlay (pbInitial exTimeline none)).1 [0, 120, 240, 360]).2 .repeat = 2 ∧
    countType (pbRunTicks exTimeline (loopParamsOf (some c8Trig))
      (pbPlay (pbInitial exTimeline none)).1 [0, 120, 240, 360]).2 .complete = 1 := by
  have h := (c8_loop_iteration_budget exTimeline (loopParamsOf (some c8Trig)) none
    [0, 120, 240, 360] 3 (by norm_num) (by decide)).1 (by decide)
  have h2 := h.2 (by decide)
  exact ⟨h2.1.trans (by norm_num), h2.2⟩

unseal Rat.add Rat.sub Rat.mul in
/-- Counterexample for C9: a `reverse`-direction loop hitting the *lower*
time bound on a non-final iteration (a `repeat` is emitted) neither flips
the direction sign (it stays −1) nor resets the cursor to the far bound
(it stays clamped at 0, not 100 = totalDuration), contradicting the claim
that on every non-final bound hit `reverse` flips the sign and resets the
cursor to the far bound. -/
theorem c9_counterexample :
    countType (pbTick exTimeline c9LoopRev 10 c9LowState).2 .repeat = 1 ∧
    (pbTick exTimeline c9LoopRev 10 c9LowState).1.direction = -1 ∧
    (pbTick exTimeline c9LoopRev 10 c9LowState).1.currentTime = 0 ∧
    c9LowState.totalDuration = 100 := by
  decide

/-- C9 (amended): on a non-final time-bound hit during looped playback
(a `repeat` is emitted): at the *upper* bound, `alternate` and `reverse`
both flip the direction to −1 and leave the cursor at the upper bound,
while any other direction (`normal`) restarts the cursor at 0 without
touching the direction sign; at the *lower* bound, only `alternate` flips
the direction (to +1, cursor at 0), while `reverse` and `normal` leave the
direction unchanged and the cursor clamped at 0. -/
theorem c9_bound_direction_handling (tl : Timeline) (L : LoopParams)
    (now last : ℚ) (s : PBState)
    (hst : s.state = .playing) (hlf : s.lastFrameTime = some last)
    (hdelay : L.delay = 0)
    (hnf : jsGeIterations (s.iterationCount + 1) L.iterations = false) :
    (s.currentTime + (now - last) * s.direction * jsAbs s.playbackRate ≥
        s.totalDuration →
      ((L.direction = "alternate" ∨ L.direction = "reverse") →
        (pbTick tl L now s).1.direction = -1 ∧
        (pbTick tl L now s).1.currentTime = s.totalDuration) ∧
      (L.direction ≠ "alternate" → L.direction ≠ "reverse" →
        (pbTick tl L now s).1.direction = s.direction ∧
        (pbTick tl L now s).1.currentTime = 0) ∧
      countType (pbTick tl L now s).2 .repeat = 1) ∧
    (¬(s.currentTime + (now - last) * s.direction * jsAbs s.playbackRate ≥
        s.totalDuration) →
      s.currentTime + (now - last) * s.direction * jsAbs s.playbackRate ≤ 0 →
      (L.direction = "alternate" →
        (pbTick tl L now s).1.direction = 1 ∧
        (pbTick tl L now s).1.currentTime = 0) ∧
      (L.direction ≠ "alternate" →
        (pbTick tl L now s).1.direction = s.direction ∧
        (pbTick tl L now s).1.currentTime = 0) ∧
      countType (pbTick tl L now s).2 .repeat = 1) := by
  have hplay : ¬s.state ≠ .playing := by
    simp [hst]
  constructor
  · intro hup
    simp only [pbTick, if_neg hplay, hlf]
    rw [hdelay]
    simp only [gt_iff_lt, lt_self_iff_false, if_false]
    rw [if_pos (by simpa using hup)]
    rw [if_neg (by simp [hnf] : ¬jsGeIterations (s.iterationCount + 1) L.iterations = true)]
    refine ⟨?_, ?_, ?_⟩
    · intro hdir
      rcases hdir with hd | hd
      · rw [if_pos hd]
        exact ⟨rfl, rfl⟩
      · by_cases hd' : L.direction = "alternate"
        · rw [if_pos hd']
          exact ⟨rfl, rfl⟩
        · rw [if_neg hd', if_pos hd]
          exact ⟨rfl, rfl⟩
    · intro hd1 hd2
      rw [if_neg hd1, if_neg hd2]
      exact ⟨rfl, rfl⟩
    · simp [countType, eventHasType]
  · intro hnup hlow
    simp only [pbTick, if_neg hplay, hlf]
    rw [if_neg (by simpa using hnup)]
    rw [if_pos (by simpa using hlow)]
    rw [if_neg (by simp [hnf] : ¬jsGeIterations (s.iterationCount + 1) L.iterations = true)]
    refine ⟨?_, ?_, ?_⟩
    · intro hd
      rw [if_pos hd]
      exact ⟨rfl, rfl⟩
    · intro hd
      rw [if_neg hd]
      exact ⟨rfl, rfl⟩
    · simp [countType, eventHasType]

unseal Rat.add Rat.sub Rat.mul in
/-- Witness for C9 (amended): an `alternate` loop hitting the upper bound
on a non-final iteration flips the direction to −1 and keeps the cursor at
the bound. -/
theorem c9_witness :
    (pbTick exTimeline c9LoopAlt 10 c9UpState).1.direction = -1 ∧
    (pbTick exTimeline c9LoopAlt 10 c9UpState).1.currentTime = 100 ∧
    countType (pbTick exTimeline c9LoopAlt 10 c9UpState).2 .repeat = 1 := by
  have h := ((c9_bound_direction_handling exTimeline c9LoopAlt 10 0 c9UpState
    rfl rfl rfl (by decide)).1 (by decide)).1 (Or.inl rfl)
  have hcnt := ((c9_bound_direction_handling exTimeline c9LoopAlt 10 0 c9UpState
    rfl rfl rfl (by decide)).1 (by decide)).2.2
  exact ⟨h.1, h.2.trans (by decide), hcnt⟩

end MotionSvg
